import Mathlib

/-!
Verification development for a Python chess engine (ChessEngine.py, SmortPart.py,
DB.py).  The Python classes and functions are shallowly embedded as Lean
definitions; the theorems at the end of the file settle the behavioural claims
about the engine.

Modelling conventions:
* a Python board square string ("wp", "bK", "--", ...) is a `Square`,
  i.e. `Option (Color × PieceType)` with `none` standing for "--";
* the mutable 8x8 list-of-lists board is embedded as a total function
  `Int → Int → Square`; the helper `boardOfLists` builds such a function from a
  literal 8x8 grid, returning `none` outside the 0..7 range (Python's negative
  index wrap-around is never exercised by the states the claims quantify over);
* in-place mutation becomes explicit state passing: functions that mutate a
  `GameState` return the updated state alongside their result;
* Python `for`-loops with `break` become fuel-indexed structural recursions so
  that everything reduces inside the kernel;
* scores mix Python `int` and `float`; every float arising in the evaluator is
  an exact multiple of 1/2, so scores are embedded as exact rationals `ℚ`.
-/

namespace ChessEngine

inductive Color where
  | w : Color
  | b : Color
deriving DecidableEq, Repr

inductive PieceType where
  | p : PieceType
  | N : PieceType
  | B : PieceType
  | R : PieceType
  | Q : PieceType
  | K : PieceType
deriving DecidableEq, Repr

/-- A board square: `none` is the empty square "--". -/
abbrev Square := Option (Color × PieceType)

/-- The 8x8 board, embedded as a total function from (row, col). -/
abbrev Board := Int → Int → Square

/-- Python `self.board[r][c] = v` (pointwise functional update). -/
def setSq (b : Board) (r c : Int) (v : Square) : Board :=
  fun r' c' => if r' = r ∧ c' = c then v else b r' c'

/-- Short names for the twelve piece strings of the Python board. -/
def wp : Square := some (Color.w, PieceType.p)
def wN : Square := some (Color.w, PieceType.N)
def wB : Square := some (Color.w, PieceType.B)
def wR : Square := some (Color.w, PieceType.R)
def wQ : Square := some (Color.w, PieceType.Q)
def wK : Square := some (Color.w, PieceType.K)
def bp : Square := some (Color.b, PieceType.p)
def bN : Square := some (Color.b, PieceType.N)
def bB : Square := some (Color.b, PieceType.B)
def bR : Square := some (Color.b, PieceType.R)
def bQ : Square := some (Color.b, PieceType.Q)
def bK : Square := some (Color.b, PieceType.K)

/-- The empty square "--". -/
def ee : Square := none

/-- Build a `Board` function from a literal 8x8 grid (row-major, as in the
Python list of lists). -/
def boardOfLists (g : List (List Square)) : Board :=
  fun r c =>
    if 0 ≤ r ∧ r < 8 ∧ 0 ≤ c ∧ c < 8 then
      ((g.getD r.toNat []).getD c.toNat none)
    else none

/-- Python class `Move` (ChessEngine.py).  The fields computed by `__init__`
are stored; `moveID` is recovered by the function `moveID` below. -/
structure Move where
  startRow : Int
  startCol : Int
  endRow : Int
  endCol : Int
  pieceMoved : Square
  pieceCaptured : Square
  isPawnPromotion : Bool
  isCastleMove : Bool
  isEnPassantMove : Bool
deriving DecidableEq, Repr

/-- Python `Move.__init__(startSq, endSq, board, isEnPassantMove, isCastleMove)`. -/
def mkMove (startSq endSq : Int × Int) (board : Board)
    (isEnPassantMove isCastleMove : Bool) : Move :=
  let pieceMoved := board startSq.1 startSq.2
  let pieceCaptured :=
    if isEnPassantMove then
      (if pieceMoved = wp then bp else wp)
    else board endSq.1 endSq.2
  { startRow := startSq.1
    startCol := startSq.2
    endRow := endSq.1
    endCol := endSq.2
    pieceMoved := pieceMoved
    pieceCaptured := pieceCaptured
    isPawnPromotion :=
      (pieceMoved = wp ∧ endSq.1 = 0) ∨ (pieceMoved = bp ∧ endSq.1 = 7)
    isCastleMove := isCastleMove
    isEnPassantMove := isEnPassantMove }

/-- Python `self.moveID = startRow * 1000 + startCol * 100 + endRow * 10 + endCol`. -/
def moveID (m : Move) : Int :=
  m.startRow * 1000 + m.startCol * 100 + m.endRow * 10 + m.endCol

/-- Python `Move.__eq__` on another `Move`. -/
def moveEq (m other : Move) : Bool :=
  moveID m = moveID other

/-- Python values a `Move` may be compared against: another `Move`, or any
non-`Move` value (collapsed to `notAMove`). -/
inductive PyVal where
  | move : Move → PyVal
  | notAMove : PyVal

/-- Python `Move.__eq__(self, other)`: `isinstance` test, then `moveID` comparison. -/
def moveEqPy (m : Move) (other : PyVal) : Bool :=
  match other with
  | PyVal.move m' => moveEq m m'
  | PyVal.notAMove => false

/-- Python `square[1] == t` for a piece-type character `t` (false on "--",
whose character at index 1 is a dash). -/
def pieceTypeIs (s : Square) (t : PieceType) : Bool :=
  match s with
  | some (_, t') => t' = t
  | none => false

/-- Python `square[0] == c` for a color character `c` (false on "--"). -/
def pieceColorIs (s : Square) (c : Color) : Bool :=
  match s with
  | some (c', _) => c' = c
  | none => false

/-- Python class `CastleRights`. -/
structure CastleRights where
  whiteKingSide : Bool
  whiteQueenSide : Bool
  blackKingSide : Bool
  blackQueenSide : Bool
deriving DecidableEq, Repr

/-- A pin or check descriptor: the Python 4-tuples
`(endRow, endCol, dx, dy)` stored in `self.pins` / `self.checks`. -/
structure RayHit where
  row : Int
  col : Int
  dx : Int
  dy : Int
deriving DecidableEq, Repr

/-- Python class `GameState` (UI-only fields such as `sqSelected`,
`playerClick`, `validMoves`, `moveMade`, `gameOver`, `threeMoveRepetition`
are omitted: no claim depends on them). -/
structure GameState where
  board : Board
  whiteToMove : Bool
  moveLog : List Move
  isChecked : Bool
  pins : List RayHit
  checks : List RayHit
  enPassantTargetSquare : Option (Int × Int)
  enPassantTargetSquareLog : List (Option (Int × Int))
  castleRights : CastleRights
  castleRightsLog : List CastleRights
  whiteKingLocation : Int × Int
  blackKingLocation : Int × Int
  checkmate : Bool
  stalemate : Bool

/-- First block of `GameState.updateCastleRights(move)`: rights lost because
the king or a rook moved. -/
def updateCastleRightsMoved (cr : CastleRights) (move : Move) : CastleRights :=
  if move.pieceMoved = wK then
    { cr with whiteKingSide := false, whiteQueenSide := false }
  else if move.pieceMoved = bK then
    { cr with blackKingSide := false, blackQueenSide := false }
  else if move.pieceMoved = wR then
    (if move.startRow = 7 then
      (if move.startCol = 0 then { cr with whiteQueenSide := false }
       else if move.startCol = 7 then { cr with whiteKingSide := false }
       else cr)
     else cr)
  else if move.pieceMoved = bR then
    (if move.startRow = 0 then
      (if move.startCol = 0 then { cr with blackQueenSide := false }
       else if move.startCol = 7 then { cr with blackKingSide := false }
       else cr)
     else cr)
  else cr

/-- Second block of `GameState.updateCastleRights(move)`: rights lost because
a rook was captured on its original square. -/
def updateCastleRightsCaptured (cr : CastleRights) (move : Move) :
    CastleRights :=
  if move.pieceCaptured = wR then
    (if move.endRow = 7 then
      (if move.endCol = 0 then { cr with whiteQueenSide := false }
       else if move.endCol = 7 then { cr with whiteKingSide := false }
       else cr)
     else cr)
  else if move.pieceCaptured = bR then
    (if move.endRow = 0 then
      (if move.endCol = 0 then { cr with blackQueenSide := false }
       else if move.endCol = 7 then { cr with blackKingSide := false }
       else cr)
     else cr)
  else cr

/-- Python `GameState.updateCastleRights(move)` as a function of the current rights
and the move (the Python method mutates `self.castleRights` in place). -/
def updateCastleRights (cr : CastleRights) (move : Move) : CastleRights :=
  updateCastleRightsCaptured (updateCastleRightsMoved cr move) move

/-- Python `GameState.makeMove(move)` (ChessEngine.py lines 218-265). -/
def makeMove (gs : GameState) (move : Move) : GameState :=
  let b1 := setSq gs.board move.startRow move.startCol none
  let b2 := setSq b1 move.endRow move.endCol move.pieceMoved
  let wKL := if move.pieceMoved = wK then (move.endRow, move.endCol)
             else gs.whiteKingLocation
  let bKL := if move.pieceMoved = bK then (move.endRow, move.endCol)
             else gs.blackKingLocation
  -- pawn promotion: board[endRow][endCol] = pieceMoved[0] + 'Q'
  let b3 := if move.isPawnPromotion then
      setSq b2 move.endRow move.endCol
        (match move.pieceMoved with
         | some (c, _) => some (c, PieceType.Q)
         | none => none)
    else b2
  -- en passant: board[startRow][endCol] = "--"
  let b4 := if move.isEnPassantMove then
      setSq b3 move.startRow move.endCol none
    else b3
  let ep : Option (Int × Int) :=
    if pieceTypeIs move.pieceMoved PieceType.p ∧
        (move.startRow - move.endRow).natAbs = 2 then
      some ((move.startRow + move.endRow) / 2, move.endCol)
    else none
  -- castling rook relocation
  let b5 := if move.isCastleMove then
      (if move.endCol - move.startCol = 2 then
        setSq (setSq b4 move.endRow (move.endCol - 1)
                 (b4 move.endRow (move.endCol + 1)))
          move.endRow (move.endCol + 1) none
       else
        setSq (setSq b4 move.endRow (move.endCol + 1)
                 (b4 move.endRow (move.endCol - 2)))
          move.endRow (move.endCol - 2) none)
    else b4
  let cr := updateCastleRights gs.castleRights move
  { gs with
      board := b5
      whiteToMove := !gs.whiteToMove
      moveLog := gs.moveLog ++ [move]
      whiteKingLocation := wKL
      blackKingLocation := bKL
      enPassantTargetSquare := ep
      enPassantTargetSquareLog := gs.enPassantTargetSquareLog ++ [ep]
      castleRights := cr
      castleRightsLog := gs.castleRightsLog ++ [cr] }

/-- Python `GameState.updateCastleRightsUndo()`: pop the log and take its new last
entry (the Python `log[-1]` on an empty list cannot occur in the engine's
usage; the all-true default mirrors the method's own `else` branch). -/
def updateCastleRightsUndo (log : List CastleRights) :
    CastleRights × List CastleRights :=
  if log.isEmpty then
    (CastleRights.mk true true true true, log)
  else
    let log' := log.dropLast
    ((log'.getLast?).getD (CastleRights.mk true true true true), log')

/-- Python `GameState.undoMove()` (ChessEngine.py lines 268-315). -/
def undoMove (gs : GameState) : GameState :=
  match gs.moveLog.getLast? with
  | none => gs
  | some move =>
    let moveLog := gs.moveLog.dropLast
    let b1 := setSq gs.board move.startRow move.startCol move.pieceMoved
    let b2 := setSq b1 move.endRow move.endCol move.pieceCaptured
    let wKL := if move.pieceMoved = wK then (move.startRow, move.startCol)
               else gs.whiteKingLocation
    let bKL := if move.pieceMoved = bK then (move.startRow, move.startCol)
               else gs.blackKingLocation
    let b3 := if move.isEnPassantMove then
        let captureRow := move.endRow +
          (if pieceColorIs move.pieceMoved Color.w then (1 : Int) else -1)
        setSq (setSq b2 move.endRow move.endCol none)
          captureRow move.endCol move.pieceCaptured
      else b2
    let epPair : Option (Int × Int) × List (Option (Int × Int)) :=
      if gs.enPassantTargetSquareLog.isEmpty then
        (none, gs.enPassantTargetSquareLog)
      else
        let l := gs.enPassantTargetSquareLog.dropLast
        ((l.getLast?).getD none, l)
    let b4 := if move.isCastleMove then
        (if move.endCol - move.startCol = 2 then
          setSq (setSq b3 move.endRow (move.endCol + 1)
                   (b3 move.endRow (move.endCol - 1)))
            move.endRow (move.endCol - 1) none
         else
          setSq (setSq b3 move.endRow (move.endCol - 2)
                   (b3 move.endRow (move.endCol + 1)))
            move.endRow (move.endCol + 1) none)
      else b3
    let crPair := updateCastleRightsUndo gs.castleRightsLog
    { gs with
        board := b4
        whiteToMove := !gs.whiteToMove
        moveLog := moveLog
        whiteKingLocation := wKL
        blackKingLocation := bKL
        enPassantTargetSquare := epPair.1
        enPassantTargetSquareLog := epPair.2
        castleRights := crPair.1
        castleRightsLog := crPair.2
        checkmate := false
        stalemate := false }

/-! ### Attack detection (`isSquareAttacked`, `inCheck`) -/

/-- One sliding ray of `isSquareAttacked`: walk `i = 1..7` from `(row, col)`
along `(dr, dc)`; an enemy queen, or rook on an orthogonal ray, or bishop on a
diagonal ray, seen before any blocker, attacks the square. -/
def slideAttackRay (board : Board) (oppColor : Color) (row col dr dc : Int)
    (isRookDir : Bool) : Nat → Int → Bool
  | 0, _ => false
  | fuel + 1, i =>
    let r := row + dr * i
    let c := col + dc * i
    if 0 ≤ r ∧ r < 8 ∧ 0 ≤ c ∧ c < 8 then
      match board r c with
      | none => slideAttackRay board oppColor row col dr dc isRookDir fuel (i + 1)
      | some (pc, pt) =>
        pc = oppColor ∧
          (pt = PieceType.Q ∨ (pt = PieceType.R ∧ isRookDir = true) ∨
            (pt = PieceType.B ∧ isRookDir = false))
    else false

/-- The eight knight offsets used throughout ChessEngine.py
(`isSquareAttacked` and `checkForPinsandChecks` order). -/
def knightOffsets : List (Int × Int) :=
  [(-2, -1), (-2, 1), (-1, -2), (-1, 2), (1, -2), (1, 2), (2, -1), (2, 1)]

/-- The eight king offsets of `isSquareAttacked` / `kingValidMoves`. -/
def kingOffsets : List (Int × Int) :=
  [(-1, -1), (-1, 0), (-1, 1), (0, -1), (0, 1), (1, -1), (1, 0), (1, 1)]

/-- The sliding directions of `isSquareAttacked`: rook directions (flagged
`true`) followed by bishop directions (flagged `false`), mirroring
`slidingDirections = rookDirections + bishopDirections` together with the
`d in rookDirections` / `d in bishopDirections` membership tests. -/
def slidingDirections : List (Int × Int × Bool) :=
  [(-1, 0, true), (1, 0, true), (0, -1, true), (0, 1, true),
   (-1, -1, false), (-1, 1, false), (1, -1, false), (1, 1, false)]

/-- Python `GameState.isSquareAttacked(row, col)` (ChessEngine.py lines 534-589),
as a function of the board and the side to move. -/
def isSquareAttacked (board : Board) (whiteToMove : Bool) (row col : Int) :
    Bool :=
  let oppColor := if whiteToMove then Color.b else Color.w
  let pawnDirection : Int := if whiteToMove then -1 else 1
  let pawnAttack :=
    if 0 ≤ row + pawnDirection ∧ row + pawnDirection < 8 then
      (decide (col - 1 ≥ 0) &&
        (board (row + pawnDirection) (col - 1) == some (oppColor, PieceType.p))) ||
      (decide (col + 1 < 8) &&
        (board (row + pawnDirection) (col + 1) == some (oppColor, PieceType.p)))
    else false
  let knightAttack :=
    knightOffsets.any fun d =>
      let r := row + d.1
      let c := col + d.2
      decide (0 ≤ r ∧ r < 8 ∧ 0 ≤ c ∧ c < 8) &&
        (board r c == some (oppColor, PieceType.N))
  let slideAttack :=
    slidingDirections.any fun d =>
      slideAttackRay board oppColor row col d.1 d.2.1 d.2.2 7 1
  let kingAttack :=
    kingOffsets.any fun d =>
      let r := row + d.1
      let c := col + d.2
      decide (0 ≤ r ∧ r < 8 ∧ 0 ≤ c ∧ c < 8) &&
        (board r c == some (oppColor, PieceType.K))
  pawnAttack || knightAttack || slideAttack || kingAttack

/-- Python `GameState.inCheck()`. -/
def inCheck (gs : GameState) : Bool :=
  let k := if gs.whiteToMove then gs.whiteKingLocation else gs.blackKingLocation
  isSquareAttacked gs.board gs.whiteToMove k.1 k.2

/-! ### `checkForPinsandChecks` -/

/-- Result of scanning one ray in `checkForPinsandChecks`: the checks found
and the pins confirmed on that ray (each ray yields at most one of the two). -/
def pinsChecksRay (board : Board) (allyColor oppColor : Color)
    (kingRow kingCol dx dy : Int) (j : Nat) :
    Nat → Int → Option RayHit → List RayHit × List RayHit
  | 0, _, _ => ([], [])
  | fuel + 1, i, possiblePins =>
    let endRow := kingRow + dx * i
    let endCol := kingCol + dy * i
    if 0 ≤ endRow ∧ endRow < 8 ∧ 0 ≤ endCol ∧ endCol < 8 then
      match board endRow endCol with
      | none =>
        pinsChecksRay board allyColor oppColor kingRow kingCol dx dy j
          fuel (i + 1) possiblePins
      | some (c, pieceType) =>
        if c = allyColor then
          match possiblePins with
          | none =>
            pinsChecksRay board allyColor oppColor kingRow kingCol dx dy j
              fuel (i + 1) (some ⟨endRow, endCol, dx, dy⟩)
          | some _ => ([], [])
        else
          if (j ≤ 3 ∧ pieceType = PieceType.R) ∨
              (4 ≤ j ∧ j ≤ 7 ∧ pieceType = PieceType.B) ∨
              pieceType = PieceType.Q ∨
              (i = 1 ∧ pieceType = PieceType.p ∧
                ((oppColor = Color.w ∧ 6 ≤ j ∧ j ≤ 7) ∨
                 (oppColor = Color.b ∧ 4 ≤ j ∧ j ≤ 5))) then
            match possiblePins with
            | none => ([⟨endRow, endCol, dx, dy⟩], [])
            | some pin => ([], [pin])
          else ([], [])
    else ([], [])

/-- The eight scan directions of `checkForPinsandChecks`, with their index. -/
def scanDirections : List (Nat × Int × Int) :=
  [(0, -1, 0), (1, 0, -1), (2, 1, 0), (3, 0, 1),
   (4, -1, -1), (5, -1, 1), (6, 1, -1), (7, 1, 1)]

/-- Python `GameState.checkForPinsandChecks()` (ChessEngine.py lines 459-520):
returns `(isChecked, pins, checks)`. -/
def checkForPinsandChecks (gs : GameState) :
    Bool × List RayHit × List RayHit :=
  let oppColor := if gs.whiteToMove then Color.b else Color.w
  let allyColor := if gs.whiteToMove then Color.w else Color.b
  let k := if gs.whiteToMove then gs.whiteKingLocation else gs.blackKingLocation
  let rayAcc := scanDirections.foldl
    (fun (acc : List RayHit × List RayHit) jd =>
      let r := pinsChecksRay gs.board allyColor oppColor k.1 k.2
        jd.2.1 jd.2.2 jd.1 7 1 none
      (acc.1 ++ r.1, acc.2 ++ r.2))
    ([], [])
  let checks := knightOffsets.foldl
    (fun (cs : List RayHit) n =>
      let endRow := k.1 + n.1
      let endCol := k.2 + n.2
      if 0 ≤ endRow ∧ endRow < 8 ∧ 0 ≤ endCol ∧ endCol < 8 then
        (if gs.board endRow endCol = some (oppColor, PieceType.N) then
          cs ++ [⟨endRow, endCol, n.1, n.2⟩]
         else cs)
      else cs)
    rayAcc.1
  (!checks.isEmpty, rayAcc.2, checks)

/-- Refresh `isChecked`, `pins`, `checks` from `checkForPinsandChecks`, as
Main.py does after every played move
(`gs.isChecked, gs.pins, gs.checks = gs.checkForPinsandChecks()`). -/
def refreshChecks (gs : GameState) : GameState :=
  let r := checkForPinsandChecks gs
  { gs with isChecked := r.1, pins := r.2.1, checks := r.2.2 }

/-! ### Pseudo-legal move generation per piece -/

/-- One sliding ray of `rookValidMoves` / `bishopValidMoves` /
`queenValidMoves`: empty squares are appended and the walk continues, the
first enemy piece is appended and stops the walk, an own piece stops it. -/
def slideMovesRay (board : Board) (whiteToMove : Bool) (row col dr dc : Int) :
    Nat → Int → List Move
  | 0, _ => []
  | fuel + 1, i =>
    let endRow := row + dr * i
    let endCol := col + dc * i
    if 0 ≤ endRow ∧ endRow < 8 ∧ 0 ≤ endCol ∧ endCol < 8 then
      match board endRow endCol with
      | none =>
        mkMove (row, col) (endRow, endCol) board false false ::
          slideMovesRay board whiteToMove row col dr dc fuel (i + 1)
      | some (c, _) =>
        if c ≠ (if whiteToMove then Color.w else Color.b) then
          [mkMove (row, col) (endRow, endCol) board false false]
        else []
    else []

/-- Python `GameState.rookValidMoves(row, col)`. -/
def rookValidMoves (gs : GameState) (row col : Int) : List Move :=
  [((-1 : Int), (0 : Int)), (1, 0), (0, -1), (0, 1)].flatMap fun d =>
    slideMovesRay gs.board gs.whiteToMove row col d.1 d.2 7 1

/-- Python `GameState.bishopValidMoves(row, col)`. -/
def bishopValidMoves (gs : GameState) (row col : Int) : List Move :=
  [((-1 : Int), (-1 : Int)), (-1, 1), (1, -1), (1, 1)].flatMap fun d =>
    slideMovesRay gs.board gs.whiteToMove row col d.1 d.2 7 1

/-- Python `GameState.queenValidMoves(row, col)`. -/
def queenValidMoves (gs : GameState) (row col : Int) : List Move :=
  [((-1 : Int), (0 : Int)), (1, 0), (0, -1), (0, 1),
   (-1, -1), (-1, 1), (1, -1), (1, 1)].flatMap fun d =>
    slideMovesRay gs.board gs.whiteToMove row col d.1 d.2 7 1

/-- Python `GameState.knightValidMoves(row, col)` (its own offset order). -/
def knightValidMoves (gs : GameState) (row col : Int) : List Move :=
  [((-2 : Int), (-1 : Int)), (-1, -2), (1, -2), (2, -1),
   (-2, 1), (-1, 2), (1, 2), (2, 1)].flatMap fun d =>
    let endRow := row + d.1
    let endCol := col + d.2
    if 0 ≤ endRow ∧ endRow < 8 ∧ 0 ≤ endCol ∧ endCol < 8 then
      (match gs.board endRow endCol with
       | none => [mkMove (row, col) (endRow, endCol) gs.board false false]
       | some (c, _) =>
         if c ≠ (if gs.whiteToMove then Color.w else Color.b) then
           [mkMove (row, col) (endRow, endCol) gs.board false false]
         else [])
    else []

/-- Python `GameState.kingValidMoves(kingRow, kingCol)`: each target square is tested
by temporarily relocating the king and calling `isSquareAttacked`; the Python
method restores the board before building the `Move`, so the embedding builds
it from the original board. -/
def kingValidMoves (gs : GameState) (kingRow kingCol : Int) : List Move :=
  let allyColor := if gs.whiteToMove then Color.w else Color.b
  kingOffsets.flatMap fun d =>
    let endRow := kingRow + d.1
    let endCol := kingCol + d.2
    if 0 ≤ endRow ∧ endRow < 8 ∧ 0 ≤ endCol ∧ endCol < 8 then
      (if (match gs.board endRow endCol with
           | none => true
           | some (c, _) => c ≠ allyColor : Bool) then
        let b1 := setSq gs.board kingRow kingCol none
        let b2 := setSq b1 endRow endCol (some (allyColor, PieceType.K))
        (if isSquareAttacked b2 gs.whiteToMove endRow endCol then []
         else [mkMove (kingRow, kingCol) (endRow, endCol) gs.board false false])
       else [])
    else []

/-- Python `GameState.isEnPassantSafe(startRow, startCol, endRow, endCol, enemyColor)`:
simulate the en passant capture on the board, test whether the mover's king is
attacked, and (in Python) restore the board; the pure embedding simulates on a
copy, so only the boolean is returned.  `enemyColor` is used by the Python
method only for the board restoration. -/
def isEnPassantSafe (board : Board) (whiteToMove : Bool)
    (whiteKingLocation blackKingLocation : Int × Int)
    (startRow startCol endRow endCol : Int) (enemyColor : Color) : Bool :=
  let _ := enemyColor
  let b1 := setSq board endRow endCol (board startRow startCol)
  let b2 := setSq b1 startRow startCol none
  let b3 := setSq b2 startRow endCol none
  let kingPosition := if whiteToMove then whiteKingLocation
                      else blackKingLocation
  !(isSquareAttacked b3 whiteToMove kingPosition.1 kingPosition.2)

/-- The pin scan at the top of `pawnValidMoves`: walk `self.pins` in reverse,
take the first entry whose square matches the pawn, remove it from the list
(`self.pins.remove(...)` — a destructive update threaded through generation),
and record its direction. -/
def pawnPinScan (pins : List RayHit) (row col : Int) :
    Bool × Option (Int × Int) × List RayHit :=
  match pins.reverse.find? (fun pin => pin.row = row ∧ pin.col = col) with
  | some pin => (true, some (pin.dx, pin.dy), pins.erase pin)
  | none => (false, none, pins)

/-- Python `GameState.pawnValidMoves(row, col)` (ChessEngine.py lines 601-655).
`pins` is the current (threaded) pin list; the updated list is returned. -/
def pawnValidMoves (gs : GameState) (pins : List RayHit) (row col : Int) :
    List Move × List RayHit :=
  let scan := pawnPinScan pins row col
  let piecePinned := scan.1
  let pinDirection := scan.2.1
  let pins' := scan.2.2
  let moveAmount : Int := if gs.whiteToMove then -1 else 1
  let startRow : Int := if gs.whiteToMove then 6 else 1
  let enemyColor := if gs.whiteToMove then Color.b else Color.w
  let forward :=
    if gs.board (row + moveAmount) col = none then
      (if ¬piecePinned ∨ pinDirection = some (moveAmount, 0) then
        mkMove (row, col) (row + moveAmount, col) gs.board false false ::
          (if row = startRow ∧ gs.board (row + 2 * moveAmount) col = none then
            [mkMove (row, col) (row + 2 * moveAmount, col) gs.board false false]
           else [])
       else [])
    else []
  let left :=
    if col - 1 ≥ 0 then
      (if ¬piecePinned ∨ pinDirection = some (moveAmount, -1) then
        (if pieceColorIs (gs.board (row + moveAmount) (col - 1)) enemyColor then
          [mkMove (row, col) (row + moveAmount, col - 1) gs.board false false]
         else []) ++
        (if gs.enPassantTargetSquare = some (row + moveAmount, col - 1) then
          (if isEnPassantSafe gs.board gs.whiteToMove gs.whiteKingLocation
               gs.blackKingLocation row col (row + moveAmount) (col - 1)
               enemyColor then
            [mkMove (row, col) (row + moveAmount, col - 1) gs.board true false]
           else [])
         else [])
       else [])
    else []
  let right :=
    if col + 1 < 8 then
      (if ¬piecePinned ∨ pinDirection = some (moveAmount, 1) then
        (if pieceColorIs (gs.board (row + moveAmount) (col + 1)) enemyColor then
          [mkMove (row, col) (row + moveAmount, col + 1) gs.board false false]
         else []) ++
        (if gs.enPassantTargetSquare = some (row + moveAmount, col + 1) then
          (if isEnPassantSafe gs.board gs.whiteToMove gs.whiteKingLocation
               gs.blackKingLocation row col (row + moveAmount) (col + 1)
               enemyColor then
            [mkMove (row, col) (row + moveAmount, col + 1) gs.board true false]
           else [])
         else [])
       else [])
    else []
  (forward ++ left ++ right, pins')

/-! ### Castling -/

/-- Python `GameState.kingSideCastling(kingRow, kingCol, moves)`. -/
def kingSideCastling (gs : GameState) (kingRow kingCol : Int) : List Move :=
  if gs.board kingRow (kingCol + 1) = none ∧
      gs.board kingRow (kingCol + 2) = none then
    (if ¬(isSquareAttacked gs.board gs.whiteToMove kingRow (kingCol + 1) = true) ∧
        ¬(isSquareAttacked gs.board gs.whiteToMove kingRow (kingCol + 2) = true) then
      [mkMove (kingRow, kingCol) (kingRow, kingCol + 2) gs.board false true]
     else [])
  else []

/-- Python `GameState.queenSideCastling(kingRow, kingCol, moves)`. -/
def queenSideCastling (gs : GameState) (kingRow kingCol : Int) : List Move :=
  if gs.board kingRow (kingCol - 1) = none ∧
      gs.board kingRow (kingCol - 2) = none ∧
      gs.board kingRow (kingCol - 3) = none then
    (if ¬(isSquareAttacked gs.board gs.whiteToMove kingRow (kingCol - 1) = true) ∧
        ¬(isSquareAttacked gs.board gs.whiteToMove kingRow (kingCol - 2) = true) then
      [mkMove (kingRow, kingCol) (kingRow, kingCol - 2) gs.board false true]
     else [])
  else []

/-- Python `GameState.getCastlingMoves(kingRow, kingCol, moves)` (returns the moves
it would append). -/
def getCastlingMoves (gs : GameState) (kingRow kingCol : Int) : List Move :=
  if inCheck gs then []
  else
    (if (gs.whiteToMove ∧ gs.castleRights.whiteKingSide) ∨
        (¬gs.whiteToMove ∧ gs.castleRights.blackKingSide) then
      kingSideCastling gs kingRow kingCol
     else []) ++
    (if (gs.whiteToMove ∧ gs.castleRights.whiteQueenSide) ∨
        (¬gs.whiteToMove ∧ gs.castleRights.blackQueenSide) then
      queenSideCastling gs kingRow kingCol
     else [])

/-! ### `validMoveIfNotCheck` and `validMoveIfCheck` -/

/-- The 64 board squares in the row-major order of the generation loop. -/
def allBoardSquares : List (Int × Int) :=
  (List.range 8).flatMap fun r =>
    (List.range 8).map fun c => ((r : Int), (c : Int))

/-- Python `GameState.validMoveIfNotCheck()` (ChessEngine.py lines 446-454): all
pseudo-legal moves for the side to move, dispatching on the piece type.  The
pin list is threaded because `pawnValidMoves` destructively consumes matched
pin entries. -/
def validMoveIfNotCheck (gs : GameState) : List Move × List RayHit :=
  allBoardSquares.foldl
    (fun (acc : List Move × List RayHit) rc =>
      match gs.board rc.1 rc.2 with
      | none => acc
      | some (c, pt) =>
        if c = (if gs.whiteToMove then Color.w else Color.b) then
          match pt with
          | PieceType.p =>
            let r := pawnValidMoves gs acc.2 rc.1 rc.2
            (acc.1 ++ r.1, r.2)
          | PieceType.N => (acc.1 ++ knightValidMoves gs rc.1 rc.2, acc.2)
          | PieceType.B => (acc.1 ++ bishopValidMoves gs rc.1 rc.2, acc.2)
          | PieceType.Q => (acc.1 ++ queenValidMoves gs rc.1 rc.2, acc.2)
          | PieceType.K => (acc.1 ++ kingValidMoves gs rc.1 rc.2, acc.2)
          | PieceType.R => (acc.1 ++ rookValidMoves gs rc.1 rc.2, acc.2)
        else acc)
    ([], gs.pins)

/-- The `validSquares` loop of the single-check branch: starting from the
square list `[(checkRow, checkCol)]`, append the ray squares from the king in
the check direction, stopping once the checker's square is appended. -/
def buildValidSquares (kingRow kingCol checkRow checkCol dx dy : Int) :
    Nat → Int → List (Int × Int)
  | 0, _ => []
  | fuel + 1, i =>
    let sq := (kingRow + dx * i, kingCol + dy * i)
    sq :: (if sq = (checkRow, checkCol) then []
           else buildValidSquares kingRow kingCol checkRow checkCol dx dy
             fuel (i + 1))

/-- Python `self.board[checkRow][checkCol][1] not in ('N', 'p')` ("--" has a
dash at index 1, which is not in the tuple). -/
def checkerIsSlider (s : Square) : Bool :=
  match s with
  | some (_, PieceType.N) => false
  | some (_, PieceType.p) => false
  | _ => true

/-- The shared epilogue of `validMoveIfCheck` (ChessEngine.py lines 434-440):
when the final list is empty, set `checkmate` if `self.isChecked` else
`stalemate`. -/
def finishMoves (isChecked : Bool) (moves : List Move) (gs1 : GameState) :
    List Move × GameState :=
  if moves.isEmpty then
    (if isChecked then (moves, { gs1 with checkmate := true })
     else (moves, { gs1 with stalemate := true }))
  else (moves, gs1)

/-- Python `GameState.validMoveIfCheck()` (ChessEngine.py lines 384-440): the legal
move list together with the updated state (consumed pin entries, and the
checkmate/stalemate flags set when the list is empty — except in the
double-check branch, which returns early). -/
def validMoveIfCheck (gs : GameState) : List Move × GameState :=
  let k := if gs.whiteToMove then gs.whiteKingLocation else gs.blackKingLocation
  if gs.isChecked then
    (if gs.checks.length > 1 then
      (kingValidMoves gs k.1 k.2, gs)
     else
      let check := gs.checks.getD 0 ⟨0, 0, 0, 0⟩
      let validSquares :=
        (check.row, check.col) ::
          (if checkerIsSlider (gs.board check.row check.col) then
            buildValidSquares k.1 k.2 check.row check.col check.dx check.dy 7 1
           else [])
      let gen := validMoveIfNotCheck gs
      let filtered := gen.1.filter fun move =>
        pieceTypeIs move.pieceMoved PieceType.K ∨
          (move.endRow, move.endCol) ∈ validSquares
      let gs1 := { gs with pins := gen.2 }
      finishMoves gs.isChecked
        (filtered ++ getCastlingMoves gs1 k.1 k.2) gs1)
  else
    let gen := validMoveIfNotCheck gs
    let filtered := gen.1.filter fun move =>
      match gen.2.find? (fun pin => move.startRow = pin.row ∧
          move.startCol = pin.col) with
      | none => true
      | some pin =>
        (move.endRow - pin.row) * pin.dy = (move.endCol - pin.col) * pin.dx
    let gs1 := { gs with pins := gen.2 }
    finishMoves gs.isChecked
      (filtered ++ getCastlingMoves gs1 k.1 k.2) gs1

/-! ### Concrete game states used by the theorems -/

/-- The starting board of `GameState.__init__`. -/
def initialBoard : Board := boardOfLists
  [[bR, bN, bB, bQ, bK, bB, bN, bR],
   [bp, bp, bp, bp, bp, bp, bp, bp],
   [ee, ee, ee, ee, ee, ee, ee, ee],
   [ee, ee, ee, ee, ee, ee, ee, ee],
   [ee, ee, ee, ee, ee, ee, ee, ee],
   [ee, ee, ee, ee, ee, ee, ee, ee],
   [wp, wp, wp, wp, wp, wp, wp, wp],
   [wR, wN, wB, wQ, wK, wB, wN, wR]]

/-- The freshly constructed `GameState()` (UI fields omitted).  The
constructor's own `validMoveIfCheck()` call leaves every stored field below
unchanged on the initial position. -/
def initialGameState : GameState :=
  { board := initialBoard
    whiteToMove := true
    moveLog := []
    isChecked := false
    pins := []
    checks := []
    enPassantTargetSquare := none
    enPassantTargetSquareLog := []
    castleRights := CastleRights.mk true true true true
    castleRightsLog := [CastleRights.mk true true true true]
    whiteKingLocation := (7, 4)
    blackKingLocation := (0, 4)
    checkmate := false
    stalemate := false }

/-- All four castling rights already lost (both kings and rooks moved). -/
def noRights : CastleRights := CastleRights.mk false false false false

/-- A reachable middlegame-style position, before refreshing the check scan:
white king e1, white bishop d2 (pinned by the black queen a5 along
a5-b4-c3-d2-e1), black rook e8 giving check down the open e-file, black king
h8; white to move. -/
def pinnedBlockState : GameState :=
  { board := boardOfLists
      [[ee, ee, ee, ee, bR, ee, ee, bK],
       [ee, ee, ee, ee, ee, ee, ee, ee],
       [ee, ee, ee, ee, ee, ee, ee, ee],
       [bQ, ee, ee, ee, ee, ee, ee, ee],
       [ee, ee, ee, ee, ee, ee, ee, ee],
       [ee, ee, ee, ee, ee, ee, ee, ee],
       [ee, ee, ee, wB, ee, ee, ee, ee],
       [ee, ee, ee, ee, wK, ee, ee, ee]]
    whiteToMove := true
    moveLog := []
    isChecked := false
    pins := []
    checks := []
    enPassantTargetSquare := none
    enPassantTargetSquareLog := []
    castleRights := noRights
    castleRightsLog := [noRights]
    whiteKingLocation := (7, 4)
    blackKingLocation := (0, 7)
    checkmate := false
    stalemate := false }

/-- The state `pinnedBlockState` with `isChecked`/`pins`/`checks` refreshed, as Main.py
does after the move that produced the position. -/
def pinnedBlockRefreshed : GameState := refreshChecks pinnedBlockState

/-- The move Bd2-e3 of the pinned white bishop, blocking the rook check but
abandoning the a5-e1 pin line. -/
def pinnedBishopMove : Move :=
  mkMove (6, 3) (5, 4) pinnedBlockRefreshed.board false false

/-- A double-check checkmate position, before refreshing the check scan:
black king h8 checked by both the rook h1 and the bishop a1, the knight e7
covering g8; black to move with no legal move at all. -/
def doubleCheckMateState : GameState :=
  { board := boardOfLists
      [[ee, ee, ee, ee, ee, ee, ee, bK],
       [ee, ee, ee, ee, wN, ee, ee, ee],
       [ee, ee, ee, ee, ee, ee, ee, ee],
       [ee, ee, ee, ee, ee, ee, ee, ee],
       [ee, ee, ee, ee, ee, ee, ee, ee],
       [ee, ee, ee, ee, ee, ee, ee, ee],
       [ee, ee, ee, ee, ee, ee, ee, ee],
       [wB, ee, wK, ee, ee, ee, ee, wR]]
    whiteToMove := false
    moveLog := []
    isChecked := false
    pins := []
    checks := []
    enPassantTargetSquare := none
    enPassantTargetSquareLog := []
    castleRights := noRights
    castleRightsLog := [noRights]
    whiteKingLocation := (7, 2)
    blackKingLocation := (0, 7)
    checkmate := false
    stalemate := false }

/-- The state `doubleCheckMateState` with the check scan refreshed. -/
def doubleCheckMateRefreshed : GameState := refreshChecks doubleCheckMateState

/-- A stalemate position, before refreshing the check scan: black king a8,
white queen c7, white king b6; black to move, not in check, no legal move. -/
def stalematePosition : GameState :=
  { board := boardOfLists
      [[bK, ee, ee, ee, ee, ee, ee, ee],
       [ee, ee, wQ, ee, ee, ee, ee, ee],
       [ee, wK, ee, ee, ee, ee, ee, ee],
       [ee, ee, ee, ee, ee, ee, ee, ee],
       [ee, ee, ee, ee, ee, ee, ee, ee],
       [ee, ee, ee, ee, ee, ee, ee, ee],
       [ee, ee, ee, ee, ee, ee, ee, ee],
       [ee, ee, ee, ee, ee, ee, ee, ee]]
    whiteToMove := false
    moveLog := []
    isChecked := false
    pins := []
    checks := []
    enPassantTargetSquare := none
    enPassantTargetSquareLog := []
    castleRights := noRights
    castleRightsLog := [noRights]
    whiteKingLocation := (2, 1)
    blackKingLocation := (0, 0)
    checkmate := false
    stalemate := false }

/-- The stalemate position as the engine itself leaves it after generating
its (empty) legal-move list: check scan refreshed, then `validMoveIfCheck`
run once, which sets the `stalemate` flag. -/
def stalemateFlagged : GameState :=
  (validMoveIfCheck (refreshChecks stalematePosition)).2

/-! ### Evaluator (SmortPart.py) -/

/-- Python `materialScores` (SmortPart.py lines 21-28). -/
def materialScores : PieceType → Int
  | PieceType.p => 100
  | PieceType.N => 320
  | PieceType.B => 390
  | PieceType.R => 500
  | PieceType.Q => 900
  | PieceType.K => 1000

/-- Python `whitePawnTable`. -/
def whitePawnTable : List (List Int) :=
  [[60, 60, 60, 60, 60, 60, 60, 60],
   [50, 50, 50, 50, 50, 50, 50, 50],
   [10, 10, 20, 30, 30, 20, 10, 10],
   [5, 5, 10, 25, 25, 10, 5, 5],
   [0, 0, 0, 20, 20, 0, 0, 0],
   [5, -5, -10, 0, 0, -10, -5, 5],
   [5, 10, 10, -20, -20, 10, 10, 5],
   [0, 0, 0, 0, 0, 0, 0, 0]]

/-- Python `blackPawnTable = whitePawnTable[::-1]`. -/
def blackPawnTable : List (List Int) := whitePawnTable.reverse

/-- Python `whiteKingTableMid`. -/
def whiteKingTableMid : List (List Int) :=
  [[-30, -40, -40, -50, -50, -40, -40, -30],
   [-30, -40, -40, -50, -50, -40, -40, -30],
   [-30, -40, -40, -50, -50, -40, -40, -30],
   [-30, -40, -40, -50, -50, -40, -40, -30],
   [-20, -30, -30, -40, -40, -30, -30, -20],
   [-10, -20, -20, -20, -20, -20, -20, -10],
   [20, 20, 0, 0, 0, 0, 20, 20],
   [20, 30, 10, 0, 0, 10, 30, 20]]

/-- Python `blackKingTableMid = whiteKingTableMid[::-1]`. -/
def blackKingTableMid : List (List Int) := whiteKingTableMid.reverse

/-- Python `whiteKingTableEnd`. -/
def whiteKingTableEnd : List (List Int) :=
  [[-50, -40, -30, -20, -20, -30, -40, -50],
   [-30, -20, -10, 0, 0, -10, -20, -30],
   [-30, -10, 20, 30, 30, 20, -10, -30],
   [-30, -10, 30, 40, 40, 30, -10, -30],
   [-30, -10, 30, 40, 40, 30, -10, -30],
   [-30, -10, 20, 30, 30, 20, -10, -30],
   [-30, -30, 0, 0, 0, 0, -30, -30],
   [-50, -40, -30, -20, -20, -30, -40, -50]]

/-- Python `blackKingTableEnd = whiteKingTableEnd[::-1]`. -/
def blackKingTableEnd : List (List Int) := whiteKingTableEnd.reverse

/-- Index a square table as `table[row][col]`. -/
def tableGet (t : List (List Int)) (row col : Int) : Int :=
  (t.getD row.toNat []).getD col.toNat 0

/-- The number of occupied squares,
`sum(1 for row in gs.board for square in row if square != "--")`. -/
def pieceCount (b : Board) : Nat :=
  allBoardSquares.countP fun rc => !(b rc.1 rc.2 == none)

/-- Python `isEndgame(gs)` (SmortPart.py lines 429-434): a piece-count threshold. -/
def isEndgame (gs : GameState) : Bool :=
  pieceCount gs.board ≤ 20

/-- Python `isOutpost(gs, row, col, pieceColor)` (SmortPart.py lines 693-718). -/
def isOutpost (gs : GameState) (row col : Int) (pieceColor : Color) : Bool :=
  let pawnDirection : Int := if pieceColor = Color.w then -1 else 1
  if 0 ≤ row + pawnDirection ∧ row + pawnDirection < 8 then
    (if ((decide (0 ≤ col - 1 ∧ col - 1 < 8)) &&
          (gs.board (row + pawnDirection) (col - 1) ==
            some (pieceColor, PieceType.p))) ||
        ((decide (0 ≤ col + 1 ∧ col + 1 < 8)) &&
          (gs.board (row + pawnDirection) (col + 1) ==
            some (pieceColor, PieceType.p))) then
      !(isSquareAttacked gs.board gs.whiteToMove row col)
     else false)
  else false

/-- Python `evaluateKnight(gs, row, col, pieceColor)` (SmortPart.py lines 502-538). -/
def evaluateKnight (gs : GameState) (row col : Int) (pieceColor : Color) :
    Int :=
  let centerSquares : List (Int × Int) := [(3, 3), (3, 4), (4, 3), (4, 4)]
  let distanceToCenter : Int :=
    ((centerSquares.map fun ctr =>
        ((row - ctr.1).natAbs + (col - ctr.2).natAbs : Int)).min?).getD 0
  let centralization := (4 - distanceToCenter) * 3
  let knightMoves := knightValidMoves gs row col
  let mobility := (knightMoves.length : Int) * 5
  let threats := knightMoves.foldl
    (fun (s : Int) mv =>
      match gs.board mv.endRow mv.endCol with
      | none => s
      | some (c, pt) =>
        if c ≠ pieceColor then s + materialScores pt / 10 else s)
    0
  let outpost : Int := if isOutpost gs row col pieceColor then 15 else 0
  centralization + mobility + threats + outpost

/-- One ray of the "control of open lines" term of `evaluateBishop` /
`evaluateQueen`: +2 per empty square, stop at a friendly piece, +30 and stop
at an enemy piece. -/
def controlRay (board : Board) (pieceColor : Color) (row col dr dc : Int) :
    Nat → Int → Int
  | 0, _ => 0
  | fuel + 1, i =>
    let r := row + dr * i
    let c := col + dc * i
    if 0 ≤ r ∧ r < 8 ∧ 0 ≤ c ∧ c < 8 then
      match board r c with
      | none => 2 + controlRay board pieceColor row col dr dc fuel (i + 1)
      | some (pc, _) => if pc = pieceColor then 0 else 30
    else 0

/-- Python `10 - abs(row - 3.5) - abs(col - 3.5)` (exact in floats, embedded
as the equal rational). -/
def centerBonus (row col : Int) : ℚ :=
  10 - |(row : ℚ) - 7 / 2| - |(col : ℚ) - 7 / 2|

/-- The threat term shared by the bishop/queen/rook evaluators: twice the
material value of each enemy-occupied destination among the given moves. -/
def threatScore (gs : GameState) (pieceColor : Color) (moves : List Move) :
    Int :=
  moves.foldl
    (fun (s : Int) mv =>
      match gs.board mv.endRow mv.endCol with
      | none => s
      | some (c, pt) => if c ≠ pieceColor then s + materialScores pt * 2 else s)
    0

/-- Python `evaluateBishop(gs, row, col, pieceColor, validMoves)` (lines 541-580). -/
def evaluateBishop (gs : GameState) (row col : Int) (pieceColor : Color)
    (validMoves : List Move) : ℚ :=
  let bishopMoves := validMoves.filter fun mv =>
    pieceTypeIs mv.pieceMoved PieceType.B
  let mobility : Int := (bishopMoves.length : Int) * 5
  let control : Int :=
    ([((-1 : Int), (-1 : Int)), (-1, 1), (1, -1), (1, 1)].map fun d =>
      controlRay gs.board pieceColor row col d.1 d.2 7 1).sum
  (mobility + control + threatScore gs pieceColor bishopMoves : ℚ) +
    centerBonus row col

/-- Python `evaluateQueen(gs, row, col, pieceColor, validMoves)` (lines 585-624). -/
def evaluateQueen (gs : GameState) (row col : Int) (pieceColor : Color)
    (validMoves : List Move) : ℚ :=
  let queenMoves := validMoves.filter fun mv =>
    pieceTypeIs mv.pieceMoved PieceType.Q
  let mobility : Int := (queenMoves.length : Int) * 5
  let control : Int :=
    ([((-1 : Int), (0 : Int)), (1, 0), (0, -1), (0, 1),
      (-1, -1), (-1, 1), (1, -1), (1, 1)].map fun d =>
      controlRay gs.board pieceColor row col d.1 d.2 7 1).sum
  (mobility + control + threatScore gs pieceColor queenMoves : ℚ) +
    centerBonus row col

/-- Python `evaluateRook(gs, row, col, pieceColor, validMoves)` (lines 627-671). -/
def evaluateRook (gs : GameState) (row col : Int) (pieceColor : Color)
    (validMoves : List Move) : Int :=
  let rookMoves := validMoves.filter fun mv =>
    pieceTypeIs mv.pieceMoved PieceType.R
  let mobility : Int := (rookMoves.length : Int) * 5
  -- isOpenFile / isSemiOpenFile flags over the rook's file (note: the loop
  -- also sees the rook itself, so both flags always end up False)
  let flags := (List.range 8).foldl
    (fun (fl : Bool × Bool) r =>
      match gs.board (r : Int) col with
      | none => fl
      | some (c, _) => ((if c = pieceColor then false else fl.1), false))
    (true, true)
  let fileBonus : Int := if flags.1 then 30 else if flags.2 then 15 else 0
  let opponentBaseRank : Int := if pieceColor = Color.w then 6 else 1
  let seventhBonus : Int := if row = opponentBaseRank then 20 else 0
  let synergy : Int := allBoardSquares.foldl
    (fun (s : Int) rc =>
      if gs.board rc.1 rc.2 = some (pieceColor, PieceType.R) ∧
          (rc.1 = row ∨ rc.2 = col) then s + 15
      else s)
    0
  mobility + fileBonus + seventhBonus + synergy +
    threatScore gs pieceColor rookMoves

/-- Python `evaluateKing(gs, row, col, pieceColor)` (SmortPart.py lines 674-689).
The king square-tables are never consulted here.  The final bonus condition
`gs.board[row][col] == pieceColor + "K" and pieceColor == 'w' if
gs.whiteToMove else 'b'` parses in Python as
`(... and pieceColor == 'w') if gs.whiteToMove else 'b'`, and the string `'b'`
is truthy, so the +5 applies unconditionally when black is to move. -/
def evaluateKing (gs : GameState) (row col : Int) (pieceColor : Color) : Int :=
  if isEndgame gs then
    (if row = 0 ∨ row = 7 then (-10 : Int) else 0) +
    -- abs(col - 3.5) < 2, exactly: |2*col - 7| < 4
    (if (2 * col - 7).natAbs < 4 then (-15 : Int) else 0) +
    (if (if gs.whiteToMove then
          (gs.board row col == some (pieceColor, PieceType.K)) &&
            (pieceColor == Color.w)
         else true) then (5 : Int) else 0)
  else 0

/-- Python `CHECKMATE` (SmortPart.py line 119). -/
def CHECKMATE : ℚ := 100000

/-- Python `STALEMATE` (SmortPart.py line 120). -/
def STALEMATE : ℚ := 0

/-- Python `DEPTH` (SmortPart.py line 121). -/
def DEPTH : Nat := 3

/-- Python `scoreBoard(gs)` (SmortPart.py lines 366-418).  The function calls
`gs.validMoveIfCheck()`, which mutates the state (pin consumption and
possibly the terminal flags), so the updated state is returned alongside the
score. -/
def scoreBoard (gs : GameState) : ℚ × GameState :=
  if gs.checkmate then
    ((if gs.whiteToMove then -CHECKMATE else CHECKMATE), gs)
  else if gs.stalemate then (STALEMATE, gs)
  else
    let gen := validMoveIfCheck gs
    let validMoves := gen.1
    let gs' := gen.2
    let score := allBoardSquares.foldl
      (fun (s : ℚ) rc =>
        match gs'.board rc.1 rc.2 with
        | none => s
        | some (pieceColor, pieceType) =>
          let materialScore : ℚ := (materialScores pieceType : ℚ)
          let positionScore : ℚ :=
            match pieceType with
            | PieceType.p =>
              ((tableGet (if pieceColor = Color.w then whitePawnTable
                          else blackPawnTable) rc.1 rc.2 : Int) : ℚ)
            | PieceType.N => (evaluateKnight gs' rc.1 rc.2 pieceColor : ℚ)
            | PieceType.B => evaluateBishop gs' rc.1 rc.2 pieceColor validMoves
            | PieceType.R =>
              (evaluateRook gs' rc.1 rc.2 pieceColor validMoves : ℚ)
            | PieceType.Q => evaluateQueen gs' rc.1 rc.2 pieceColor validMoves
            | PieceType.K => (evaluateKing gs' rc.1 rc.2 pieceColor : ℚ)
          s + (if pieceColor = Color.w then materialScore else -materialScore)
            + (if pieceColor = Color.w then positionScore else -positionScore))
      0
    (score, gs')

/-! ### Search (SmortPart.py) -/

/-- The body shared by both search loops for one candidate move: make the
move, regenerate the legal list on the shared state, recurse with the negated
score convention, undo.  Returns `(score, nextMove, state after undo)`; the
shared `GameState` is threaded exactly as the Python in-place mutation does
(`undoMove` restores the board but keeps consumed pins and clears the
terminal flags). -/
def searchChildEval
    (recur : GameState → List Move → Option Move → ℚ × Option Move × GameState)
    (gs : GameState) (mv : Move) (nm : Option Move) :
    ℚ × Option Move × GameState :=
  let child := makeMove gs mv
  let gen := validMoveIfCheck child
  let r := recur gen.2 gen.1 nm
  (-r.1, r.2.1, undoMove r.2.2)

/-- The move loop of `findMoveNegaMax`.  `recur` is the search at the next
depth with the negated turn multiplier; `atRootDepth` is the Python
`depth == DEPTH` test guarding the `nextMove` global, threaded here as the
second component. -/
def nmLoop
    (recur : GameState → List Move → Option Move → ℚ × Option Move × GameState)
    (atRootDepth : Bool) :
    List Move → ℚ → Option Move → GameState → ℚ × Option Move × GameState
  | [], maxScore, nm, gs => (maxScore, nm, gs)
  | mv :: rest, maxScore, nm, gs =>
    let s := searchChildEval recur gs mv nm
    let upd := if s.1 > maxScore then
        (s.1, if atRootDepth then some mv else s.2.1)
      else (maxScore, s.2.1)
    nmLoop recur atRootDepth rest upd.1 upd.2 s.2.2

/-- Python `findMoveNegaMax(gs, validMoves, depth, turnMultiplier)` (SmortPart.py
lines 272-289), returning `(score, nextMove, state)`. -/
def findMoveNegaMax :
    Nat → Int → GameState → List Move → Option Move →
      ℚ × Option Move × GameState
  | 0, tm, gs, _validMoves, nm =>
    let r := scoreBoard gs
    ((tm : ℚ) * r.1, nm, r.2)
  | d + 1, tm, gs, validMoves, nm =>
    nmLoop (findMoveNegaMax d (-tm)) (d + 1 == DEPTH) validMoves
      (-CHECKMATE) nm gs

/-- The move loop of `findMoveNegaMaxAlphaBeta`, with the fail-hard cutoff
`alpha = max(alpha, score); if alpha >= beta: break`. -/
def abLoop
    (recur : ℚ → ℚ → GameState → List Move → Option Move →
      ℚ × Option Move × GameState)
    (atRootDepth : Bool) (beta : ℚ) :
    List Move → ℚ → ℚ → Option Move → GameState →
      ℚ × Option Move × GameState
  | [], maxScore, _alpha, nm, gs => (maxScore, nm, gs)
  | mv :: rest, maxScore, alpha, nm, gs =>
    let s := searchChildEval (recur (-beta) (-alpha)) gs mv nm
    let upd := if s.1 > maxScore then
        (s.1, if atRootDepth then some mv else s.2.1)
      else (maxScore, s.2.1)
    let alpha' := max alpha s.1
    if alpha' ≥ beta then (upd.1, upd.2, s.2.2)
    else abLoop recur atRootDepth beta rest upd.1 alpha' upd.2 s.2.2

/-- Python `findMoveNegaMaxAlphaBeta(gs, validMoves, depth, alpha, beta,
turnMultiplier)` (SmortPart.py lines 291-312). -/
def findMoveNegaMaxAlphaBeta :
    Nat → Int → ℚ → ℚ → GameState → List Move → Option Move →
      ℚ × Option Move × GameState
  | 0, tm, _alpha, _beta, gs, _validMoves, nm =>
    let r := scoreBoard gs
    ((tm : ℚ) * r.1, nm, r.2)
  | d + 1, tm, alpha, beta, gs, validMoves, nm =>
    if gs.checkmate ∨ gs.stalemate then
      let r := scoreBoard gs
      ((tm : ℚ) * r.1, nm, r.2)
    else
      abLoop (findMoveNegaMaxAlphaBeta d (-tm)) (d + 1 == DEPTH) beta
        validMoves (-CHECKMATE) alpha nm gs

/-! ### External move cache (DB.py, class `BestMoveFinder`) -/

/-- A parsed JSON value, as far as the cache code inspects it: either a JSON
object (a Python dict, here an association list) or anything else. -/
inductive JsonVal where
  | obj : List (String × JsonVal) → JsonVal
  | nonObj : JsonVal

/-- Python `BestMoveFinder.load_data()` (DB.py lines 10-25).  The file system and the
`json` library are outside the repository, so they enter as data: `file` is
`none` when `os.path.exists` fails and `some content` otherwise, and
`parseJson` stands for `json.loads`, returning `none` exactly when the parse
raises `json.JSONDecodeError`.  Python `content.strip()` is `String.trim`,
and `if content:` is the emptiness test. -/
def load_data (parseJson : String → Option JsonVal) (file : Option String) :
    JsonVal :=
  match file with
  | none => JsonVal.obj []
  | some content =>
    let c := content.trim
    if c ≠ "" then
      (match parseJson c with
       | some v => v
       | none => JsonVal.obj [])
    else JsonVal.obj []

/-- Python `dict.get(key, None)` on the loaded data (a non-dict value would
make `data.get` raise in Python; the engine only builds dict stores). -/
def dictGet (data : JsonVal) (key : String) : Option JsonVal :=
  match data with
  | JsonVal.obj l => (l.find? fun kv => kv.1 = key).map fun kv => kv.2
  | JsonVal.nonObj => none

/-- Python `BestMoveFinder.get_best_move(...)` (DB.py lines 90-92): the `fen`
argument stands for the `board_to_fen` fingerprint of the queried position.
-/
def get_best_move (data : JsonVal) (fen : String) : Option JsonVal :=
  dictGet data fen

/-! ### Cached-move encoding (DB.py lines 66-76)

Python strings are embedded as `List Char`; `str.split(sep)` is `splitOnSub`
below (left-to-right, non-overlapping occurrences of a non-empty separator).
-/

/-- Worker for `splitOnSub`, structurally recursive on a fuel bound (the fuel
never runs out when it starts at the string length). -/
def splitGo (sep : List Char) : Nat → List Char → List (List Char)
  | 0, _ => [[]]
  | _ + 1, [] => [[]]
  | fuel + 1, ch :: rest =>
    if sep ≠ [] ∧ sep.isPrefixOf (ch :: rest) then
      [] :: splitGo sep fuel (List.drop (sep.length - 1) rest)
    else
      match splitGo sep fuel rest with
      | [] => [[ch]]
      | h :: t => (ch :: h) :: t

/-- Python `s.split(sep)` for a non-empty separator. -/
def splitOnSub (sep s : List Char) : List (List Char) :=
  splitGo sep s.length s

/-- Python `sep in s` (substring containment, non-empty `sep`). -/
def containsSub (sep : List Char) : List Char → Bool
  | [] => false
  | ch :: rest => sep.isPrefixOf (ch :: rest) || containsSub sep rest

/-- Python `BestMoveFinder.fen_to_custom_notation(startSq, endSq, pieceMoved)`:
`f"{pieceMoved}:{chr(c+97)}{8-r}->{chr(c+97)}{8-r}"` for in-range squares
(`str(8 - r)` is the single digit `1`-`8`). -/
def fen_to_custom_notation (startSq endSq : Nat × Nat)
    (pieceMoved : List Char) : List Char :=
  let start := [Char.ofNat (startSq.2 + 97), Char.ofNat (48 + (8 - startSq.1))]
  let endS := [Char.ofNat (endSq.2 + 97), Char.ofNat (48 + (8 - endSq.1))]
  pieceMoved ++ [':'] ++ start ++ ['-', '>'] ++ endS

/-- Python `BestMoveFinder.custom_notation_to_fen_move(move)` (ChessEngine.py lines
907-917): split on `":"`, then on `"->"`; `none` models the `ValueError` a
Python tuple unpacking raises when a split does not yield exactly two parts.
`int(start[1])` is the digit value, `ord(start[0]) - 97` the file index. -/
def custom_notation_to_fen_move (move : List Char) :
    Option ((Nat × Nat) × (Nat × Nat) × List Char) :=
  match splitOnSub [':'] move with
  | [pieceMoved, squares] =>
    (match splitOnSub ['-', '>'] squares with
     | [start, endS] =>
       some ((8 - ((start.getD 1 ' ').toNat - 48),
              (start.getD 0 ' ').toNat - 97),
             (8 - ((endS.getD 1 ' ').toNat - 48),
              (endS.getD 0 ' ').toNat - 97),
             pieceMoved)
     | _ => none)
  | _ => none

/-- Initial-like middlegame position whose white king stands on b1 (the b1
knight's square), used to compare `evaluateKing` with the king tables: 31
pieces, so by any reading a middlegame. -/
def kingOnB1State : GameState :=
  { board := boardOfLists
      [[bR, bN, bB, bQ, bK, bB, bN, bR],
       [bp, bp, bp, bp, bp, bp, bp, bp],
       [ee, ee, ee, ee, ee, ee, ee, ee],
       [ee, ee, ee, ee, ee, ee, ee, ee],
       [ee, ee, ee, ee, ee, ee, ee, ee],
       [ee, ee, ee, ee, ee, ee, ee, ee],
       [wp, wp, wp, wp, wp, wp, wp, wp],
       [wR, wK, wB, wQ, ee, wB, wN, wR]]
    whiteToMove := true
    moveLog := []
    isChecked := false
    pins := []
    checks := []
    enPassantTargetSquare := none
    enPassantTargetSquareLog := []
    castleRights := noRights
    castleRightsLog := [noRights]
    whiteKingLocation := (7, 1)
    blackKingLocation := (0, 4)
    checkmate := false
    stalemate := false }

end ChessEngine

open ChessEngine

/-! ## Claim C6 -/

/-- C6: in the freshly constructed initial `GameState` (standard starting
placement, white to move, full castling rights, no en-passant target), the
legal-move list generated by `validMoveIfCheck` contains exactly 20 moves. -/
theorem initial_position_twenty_moves :
    (validMoveIfCheck initialGameState).1.length = 20 := by decide

/-! ## Claim C9 -/

/-- C9: `Move.__eq__` holds between two moves exactly when the integers
`startRow*1000 + startCol*100 + endRow*10 + endCol` agree; hence two moves
with the same start and end squares compare equal whatever their piece,
capture or flag fields, and comparison with a non-`Move` value is `False`. -/
theorem move_eq_iff_moveID :
    (∀ m₁ m₂ : Move, moveEqPy m₁ (PyVal.move m₂) = true ↔
      m₁.startRow * 1000 + m₁.startCol * 100 + m₁.endRow * 10 + m₁.endCol =
        m₂.startRow * 1000 + m₂.startCol * 100 + m₂.endRow * 10 + m₂.endCol) ∧
    (∀ m₁ m₂ : Move, m₁.startRow = m₂.startRow → m₁.startCol = m₂.startCol →
      m₁.endRow = m₂.endRow → m₁.endCol = m₂.endCol →
      moveEqPy m₁ (PyVal.move m₂) = true) ∧
    (∀ m : Move, moveEqPy m PyVal.notAMove = false) := by
  refine ⟨fun m₁ m₂ => ?_, fun m₁ m₂ h1 h2 h3 h4 => ?_, fun m => rfl⟩
  · simp [moveEqPy, moveEq, moveID]
  · simp [moveEqPy, moveEq, moveID, h1, h2, h3, h4]

/-- Witness for C9: the pawn move e2-e4 compares equal to a move with the
same squares but a different piece, capture and flags, and compares `False`
to a non-`Move`. -/
theorem move_eq_iff_moveID_witness :
    moveEqPy (mkMove (6, 4) (4, 4) initialBoard false false)
      (PyVal.move (Move.mk 6 4 4 4 bQ wR true true true)) = true ∧
    moveEqPy (mkMove (6, 4) (4, 4) initialBoard false false)
      PyVal.notAMove = false :=
  ⟨move_eq_iff_moveID.2.1 _ _ rfl rfl rfl rfl, move_eq_iff_moveID.2.2 _⟩

/-! ## Claim C8 -/

/-- C8: `BestMoveFinder.load_data` on a missing file, an empty file, or a
file whose content `json.loads` rejects, yields the empty cache dictionary
(never an error), so every `get_best_move` lookup on such a store is the
no-entry result. -/
theorem load_data_degenerate_empty_cache
    (parseJson : String → Option JsonVal) (file : Option String)
    (fen : String)
    (h : file = none ∨ (∃ c, file = some c ∧ c.trim = "") ∨
      (∃ c, file = some c ∧ parseJson c.trim = none)) :
    load_data parseJson file = JsonVal.obj [] ∧
      get_best_move (load_data parseJson file) fen = none := by
  have hld : load_data parseJson file = JsonVal.obj [] := by
    rcases h with h | ⟨c, hc, hempty⟩ | ⟨c, hc, hbad⟩
    · simp [h, load_data]
    · simp [hc, load_data, hempty]
    · subst hc
      by_cases hempty : c.trim = ""
      · simp [load_data, hempty]
      · simp [load_data, hempty, hbad]
  exact ⟨hld, by simp [hld, get_best_move, dictGet]⟩

/-- Witness for C8: a store whose parser rejects the content. -/
theorem load_data_degenerate_empty_cache_witness :
    load_data (fun _ => none) (some "oops") = JsonVal.obj [] ∧
      get_best_move (load_data (fun _ => none) (some "oops")) "fen" = none :=
  load_data_degenerate_empty_cache (fun _ => none) (some "oops") "fen"
    (Or.inr (Or.inr ⟨"oops", rfl, rfl⟩))

/-! ## Claim C2 -/

/-- C2 (failing input): on the in-check position with white king e1, white
bishop d2 pinned by the black queen a5, and the black rook e8 giving check
(check data refreshed exactly as Main.py does), `validMoveIfCheck` returns
the move Bd2-e3 — yet after `makeMove` plays it, the white king square e1
is attacked by the opponent (the queen a5 now sees e1 through the vacated
d2).  This contradicts the function's stated purpose of filtering out moves
that leave the king in check: the single-check branch ignores pins. -/
theorem validMoveIfCheck_pinned_block_unsound :
    pinnedBlockRefreshed.isChecked = true ∧
    pinnedBlockRefreshed.pins = [⟨6, 3, -1, -1⟩] ∧
    pinnedBishopMove ∈ (validMoveIfCheck pinnedBlockRefreshed).1 ∧
    (makeMove pinnedBlockRefreshed pinnedBishopMove).whiteKingLocation =
      (7, 4) ∧
    isSquareAttacked (makeMove pinnedBlockRefreshed pinnedBishopMove).board
      true 7 4 = true := by decide

/-! ## Claim C3 -/

/-- C3 (counterexample): in a double-check position with no legal king move
(black king h8, white rook h1 and bishop a1 both checking, knight e7
covering g8), `validMoveIfCheck` returns the empty list through its
double-check early return and sets neither `checkmate` nor `stalemate`. -/
theorem doubleCheck_mate_flag_not_set :
    doubleCheckMateRefreshed.isChecked = true ∧
    doubleCheckMateRefreshed.checks.length > 1 ∧
    (validMoveIfCheck doubleCheckMateRefreshed).1 = [] ∧
    (validMoveIfCheck doubleCheckMateRefreshed).2.checkmate = false ∧
    (validMoveIfCheck doubleCheckMateRefreshed).2.stalemate = false := by
  decide

/-! ## Claim C7 -/

/-- C7 (counterexample): the king evaluation used by the search never takes
its value from the king square-tables.  With the white king on b1 in a
31-piece position, `evaluateKing` contributes 0 while the middlegame table
entry is 30 and the endgame entry is -40; in a 3-piece position with the
white king on b6, it contributes 5 while the endgame table entry is -10.
So for no material threshold does the contribution switch between the two
tables. -/
theorem evaluateKing_ignores_king_tables :
    (evaluateKing kingOnB1State 7 1 Color.w ≠
        tableGet whiteKingTableMid 7 1 ∧
      evaluateKing kingOnB1State 7 1 Color.w ≠
        tableGet whiteKingTableEnd 7 1 ∧
      20 < pieceCount kingOnB1State.board) ∧
    (evaluateKing stalematePosition 2 1 Color.w ≠
        tableGet whiteKingTableMid 2 1 ∧
      evaluateKing stalematePosition 2 1 Color.w ≠
        tableGet whiteKingTableEnd 2 1 ∧
      pieceCount stalematePosition.board ≤ 20) := by decide

/-- C7 (amended): the switch in `evaluateKing` is governed by `isEndgame`,
a total piece-count threshold (at most 20 occupied squares), not by a
material sum, and outside that regime the king's positional contribution is
the constant 0 rather than a middlegame-table value. -/
theorem evaluateKing_zero_outside_endgame (gs : GameState) (row col : Int)
    (pieceColor : Color) (h : 20 < pieceCount gs.board) :
    evaluateKing gs row col pieceColor = 0 ∧ isEndgame gs = false := by
  have he : isEndgame gs = false := by
    simp only [isEndgame, decide_eq_false_iff_not]
    omega
  exact ⟨by simp [evaluateKing, he], he⟩

/-- Witness for C7's amended theorem at the 31-piece position. -/
theorem evaluateKing_zero_outside_endgame_witness :
    20 < pieceCount kingOnB1State.board ∧
      evaluateKing kingOnB1State 7 1 Color.w = 0 ∧
      isEndgame kingOnB1State = false :=
  ⟨by decide,
    (evaluateKing_zero_outside_endgame kingOnB1State 7 1 Color.w
      (by decide)).1,
    (evaluateKing_zero_outside_endgame kingOnB1State 7 1 Color.w
      (by decide)).2⟩

/-- C3 (amended): outside the double-check early return, an empty list from
`validMoveIfCheck` does set the flags: `checkmate` when the side to move is
recorded as in check, `stalemate` otherwise. -/
theorem validMoveIfCheck_empty_sets_flags (gs : GameState)
    (hnd : ¬(gs.isChecked = true ∧ gs.checks.length > 1))
    (hempty : (validMoveIfCheck gs).1 = []) :
    (gs.isChecked = true → (validMoveIfCheck gs).2.checkmate = true) ∧
    (gs.isChecked = false → (validMoveIfCheck gs).2.stalemate = true) := by
  have key : ∃ all gs1,
      validMoveIfCheck gs = finishMoves gs.isChecked all gs1 := by
    cases hch : gs.isChecked with
    | true =>
      have hlen : ¬gs.checks.length > 1 := fun hl => hnd ⟨hch, hl⟩
      unfold validMoveIfCheck
      rw [hch, if_pos rfl, if_neg hlen]
      exact ⟨_, _, rfl⟩
    | false =>
      unfold validMoveIfCheck
      rw [hch, if_neg (by simp)]
      exact ⟨_, _, rfl⟩
  obtain ⟨all, gs1, key⟩ := key
  rw [key] at hempty ⊢
  have hall : all = [] := by
    revert hempty
    unfold finishMoves
    split
    · cases gs.isChecked <;> simp_all [List.isEmpty_iff]
    · exact fun h => h
  subst hall
  cases hch : gs.isChecked <;> simp [finishMoves]

/-- Witness for C3's amended theorem at the stalemate position (no check,
empty move list, stalemate flag set). -/
theorem validMoveIfCheck_empty_sets_flags_witness :
    ¬((refreshChecks stalematePosition).isChecked = true ∧
        (refreshChecks stalematePosition).checks.length > 1) ∧
      (validMoveIfCheck (refreshChecks stalematePosition)).1 = [] ∧
      ((refreshChecks stalematePosition).isChecked = false →
        (validMoveIfCheck (refreshChecks stalematePosition)).2.stalemate =
          true) :=
  ⟨by decide, by decide,
    (validMoveIfCheck_empty_sets_flags (refreshChecks stalematePosition)
      (by decide) (by decide)).2⟩

/-! ## Claim C5 -/

/-- The function `updateCastleRightsMoved` only ever clears rights. -/
theorem updateCastleRightsMoved_mono (cr : CastleRights) (m : Move) :
    (cr.whiteKingSide = false →
      (updateCastleRightsMoved cr m).whiteKingSide = false) ∧
    (cr.whiteQueenSide = false →
      (updateCastleRightsMoved cr m).whiteQueenSide = false) ∧
    (cr.blackKingSide = false →
      (updateCastleRightsMoved cr m).blackKingSide = false) ∧
    (cr.blackQueenSide = false →
      (updateCastleRightsMoved cr m).blackQueenSide = false) := by
  obtain ⟨wks, wqs, bks, bqs⟩ := cr
  unfold updateCastleRightsMoved
  split_ifs <;> simp_all

/-- The function `updateCastleRightsCaptured` only ever clears rights. -/
theorem updateCastleRightsCaptured_mono (cr : CastleRights) (m : Move) :
    (cr.whiteKingSide = false →
      (updateCastleRightsCaptured cr m).whiteKingSide = false) ∧
    (cr.whiteQueenSide = false →
      (updateCastleRightsCaptured cr m).whiteQueenSide = false) ∧
    (cr.blackKingSide = false →
      (updateCastleRightsCaptured cr m).blackKingSide = false) ∧
    (cr.blackQueenSide = false →
      (updateCastleRightsCaptured cr m).blackQueenSide = false) := by
  obtain ⟨wks, wqs, bks, bqs⟩ := cr
  unfold updateCastleRightsCaptured
  split_ifs <;> simp_all

/-- The function `updateCastleRights` only ever clears rights, never grants them. -/
theorem updateCastleRights_mono (cr : CastleRights) (m : Move) :
    (cr.whiteKingSide = false →
      (updateCastleRights cr m).whiteKingSide = false) ∧
    (cr.whiteQueenSide = false →
      (updateCastleRights cr m).whiteQueenSide = false) ∧
    (cr.blackKingSide = false →
      (updateCastleRights cr m).blackKingSide = false) ∧
    (cr.blackQueenSide = false →
      (updateCastleRights cr m).blackQueenSide = false) := by
  have h1 := updateCastleRightsMoved_mono cr m
  have h2 := updateCastleRightsCaptured_mono (updateCastleRightsMoved cr m) m
  exact ⟨fun h => h2.1 (h1.1 h), fun h => h2.2.1 (h1.2.1 h),
    fun h => h2.2.2.1 (h1.2.2.1 h), fun h => h2.2.2.2 (h1.2.2.2 h)⟩

/-- C5: along any forward sequence of `makeMove` applications, each castling
right is monotonically non-increasing: once cleared, no later `makeMove`
restores it. -/
theorem castleRights_monotone (gs : GameState) (ms : List Move) :
    (gs.castleRights.whiteKingSide = false →
      (ms.foldl makeMove gs).castleRights.whiteKingSide = false) ∧
    (gs.castleRights.whiteQueenSide = false →
      (ms.foldl makeMove gs).castleRights.whiteQueenSide = false) ∧
    (gs.castleRights.blackKingSide = false →
      (ms.foldl makeMove gs).castleRights.blackKingSide = false) ∧
    (gs.castleRights.blackQueenSide = false →
      (ms.foldl makeMove gs).castleRights.blackQueenSide = false) := by
  induction ms generalizing gs with
  | nil => exact ⟨id, id, id, id⟩
  | cons m rest ih =>
    have hstep : (makeMove gs m).castleRights =
        updateCastleRights gs.castleRights m := rfl
    have hm := updateCastleRights_mono gs.castleRights m
    have hi := ih (makeMove gs m)
    rw [hstep] at hi
    exact ⟨fun h => hi.1 (hm.1 h), fun h => hi.2.1 (hm.2.1 h),
      fun h => hi.2.2.1 (hm.2.2.1 h), fun h => hi.2.2.2 (hm.2.2.2 h)⟩

/-- Witness for C5: in the stalemate position all four rights are already
false and stay false across a king move. -/
theorem castleRights_monotone_witness :
    stalematePosition.castleRights.whiteKingSide = false ∧
      ([mkMove (0, 0) (0, 1) stalematePosition.board false false].foldl
        makeMove stalematePosition).castleRights.whiteKingSide = false :=
  ⟨by decide,
    (castleRights_monotone stalematePosition
      [mkMove (0, 0) (0, 1) stalematePosition.board false false]).1
      (by decide)⟩

/-! ## Claim C4 -/

/-- C4 (counterexample): on the stalemate position as the engine leaves it
after generating its empty legal-move list (stalemate flag set), searching
with the full window at depth 1 gives different scores: alpha-beta's
terminal base case returns the static evaluation (0), while the unpruned
negamax runs its empty loop and returns `-CHECKMATE`. -/
theorem alphaBeta_negamax_stalemate_mismatch :
    (validMoveIfCheck (refreshChecks stalematePosition)).1 = [] ∧
    stalemateFlagged.stalemate = true ∧
    (findMoveNegaMaxAlphaBeta 1 (-1) (-CHECKMATE) CHECKMATE stalemateFlagged
        [] none).1 ≠
      (findMoveNegaMax 1 (-1) stalemateFlagged [] none).1 := by
  refine ⟨by decide, by decide, ?_⟩
  have hab : (findMoveNegaMaxAlphaBeta 1 (-1) (-CHECKMATE) CHECKMATE
      stalemateFlagged [] none).1 = 0 := by
    have hsm : stalemateFlagged.stalemate = true := by decide
    have hcm : stalemateFlagged.checkmate = false := by decide
    simp [findMoveNegaMaxAlphaBeta, scoreBoard, hsm, hcm, STALEMATE]
  have hnm : (findMoveNegaMax 1 (-1) stalemateFlagged [] none).1 =
      -CHECKMATE := by simp [findMoveNegaMax, nmLoop]
  rw [hab, hnm]
  norm_num [CHECKMATE]

/-- The running maximum of the negamax loop never decreases below its
starting value. -/
theorem nmLoop_fst_ge
    (recur : GameState → List Move → Option Move →
      ℚ × Option Move × GameState) (root : Bool) :
    ∀ (l : List Move) (ms : ℚ) (nm : Option Move) (gs : GameState),
      ms ≤ (nmLoop recur root l ms nm gs).1 := by
  intro l
  induction l with
  | nil => intro ms nm gs; exact le_refl ms
  | cons mv rest ih =>
    intro ms nm gs
    rw [nmLoop]
    refine le_trans ?_ (ih _ _ _)
    by_cases hc : (searchChildEval recur gs mv nm).1 > ms
    · rw [if_pos hc]
      exact le_of_lt hc
    · rw [if_neg hc]

/-- At depth 0 the two searches are the same function: both return
`turnMultiplier * scoreBoard(gs)` and ignore the window. -/
theorem alphaBeta_zero_eq_negamax_zero (tm : Int) (alpha beta : ℚ)
    (gs : GameState) (l : List Move) (nm : Option Move) :
    findMoveNegaMaxAlphaBeta 0 tm alpha beta gs l nm =
      findMoveNegaMax 0 tm gs l nm := rfl

/-- Loop equivalence: as long as every score stays below `beta` (witnessed by
the final unpruned maximum staying below `beta`), the alpha-beta loop with
`alpha` equal to the running maximum never cuts and computes exactly the
negamax loop, threading the identical state. -/
theorem abLoop_eq_nmLoop
    (recurA : ℚ → ℚ → GameState → List Move → Option Move →
      ℚ × Option Move × GameState)
    (recurN : GameState → List Move → Option Move →
      ℚ × Option Move × GameState)
    (hre : ∀ a b gs l nm, recurA a b gs l nm = recurN gs l nm) (beta : ℚ) :
    ∀ (l : List Move) (ms : ℚ) (nm : Option Move) (gs : GameState),
      (nmLoop recurN false l ms nm gs).1 < beta →
      abLoop recurA false beta l ms ms nm gs =
        nmLoop recurN false l ms nm gs := by
  intro l
  induction l with
  | nil => intro ms nm gs _h; rfl
  | cons mv rest ih =>
    intro ms nm gs h
    have hs : searchChildEval (recurA (-beta) (-ms)) gs mv nm =
        searchChildEval recurN gs mv nm := by
      unfold searchChildEval
      simp only [hre]
    rw [nmLoop] at h ⊢
    rw [abLoop.eq_def]
    dsimp only
    rw [hs]
    -- the updated running maximum equals `max ms score`
    have hupd : (if (searchChildEval recurN gs mv nm).1 > ms
        then ((searchChildEval recurN gs mv nm).1,
              (searchChildEval recurN gs mv nm).2.1)
        else (ms, (searchChildEval recurN gs mv nm).2.1)).1 =
        max ms (searchChildEval recurN gs mv nm).1 := by
      by_cases hc : (searchChildEval recurN gs mv nm).1 > ms
      · rw [if_pos hc]
        exact (max_eq_right (le_of_lt hc)).symm
      · rw [if_neg hc]
        exact (max_eq_left (le_of_not_lt hc)).symm
    -- no cutoff: the new maximum is bounded by the loop's final result
    have hnocut : ¬ max ms (searchChildEval recurN gs mv nm).1 ≥ beta := by
      rw [← hupd]
      intro hge
      exact absurd (lt_of_le_of_lt (le_trans hge (nmLoop_fst_ge recurN false
        rest _ _ _)) h) (lt_irrefl _)
    rw [if_neg hnocut, ← hupd]
    exact ih _ _ _ h

/-- C4 (amended): with the full window, alpha-beta agrees with the unpruned
negamax at depth 1 (score, selected move and threaded state) whenever the
searched position is not already flagged terminal and the unpruned best
score stays below `CHECKMATE` (so no artificial cut at the attainable
maximum fires); the stalemate counterexample shows both provisos are
necessary and that the agreement fails at terminal-flagged positions. -/
theorem alphaBeta_eq_negamax_depth_one (tm : Int) (gs : GameState)
    (moves : List Move) (nm : Option Move)
    (hcm : gs.checkmate = false) (hsm : gs.stalemate = false)
    (hbound : (findMoveNegaMax 1 tm gs moves nm).1 < CHECKMATE) :
    findMoveNegaMaxAlphaBeta 1 tm (-CHECKMATE) CHECKMATE gs moves nm =
      findMoveNegaMax 1 tm gs moves nm := by
  have hterm : ¬(gs.checkmate = true ∨ gs.stalemate = true) := by
    simp [hcm, hsm]
  rw [findMoveNegaMaxAlphaBeta, if_neg hterm, findMoveNegaMax]
  have hroot : ((0 : Nat) + 1 == DEPTH) = false := rfl
  rw [hroot]
  have hb : (nmLoop (findMoveNegaMax 0 (-tm)) false moves (-CHECKMATE) nm
      gs).1 < CHECKMATE := by
    rw [findMoveNegaMax] at hbound
    exact hbound
  exact abLoop_eq_nmLoop (findMoveNegaMaxAlphaBeta 0 (-tm))
    (findMoveNegaMax 0 (-tm))
    (fun a b gs' l' nm' => alphaBeta_zero_eq_negamax_zero (-tm) a b gs' l' nm')
    CHECKMATE moves (-CHECKMATE) nm gs hb

/-- Witness for C4's amended theorem: the initial position (flags unset) with
an empty candidate list. -/
theorem alphaBeta_eq_negamax_depth_one_witness :
    initialGameState.checkmate = false ∧ initialGameState.stalemate = false ∧
    (findMoveNegaMax 1 1 initialGameState [] none).1 < CHECKMATE ∧
    findMoveNegaMaxAlphaBeta 1 1 (-CHECKMATE) CHECKMATE initialGameState []
        none =
      findMoveNegaMax 1 1 initialGameState [] none := by
  have hb : (findMoveNegaMax 1 1 initialGameState [] none).1 < CHECKMATE := by
    have : (findMoveNegaMax 1 1 initialGameState [] none).1 = -CHECKMATE := by
      simp [findMoveNegaMax, nmLoop]
    rw [this]
    norm_num [CHECKMATE]
  exact ⟨rfl, rfl, hb,
    alphaBeta_eq_negamax_depth_one 1 initialGameState [] none rfl rfl hb⟩

/-! ## Claim C1 -/

/-- Pointwise evaluation of a board update. -/
theorem setSq_eval (b : Board) (r c : Int) (v : Square) (r' c' : Int) :
    setSq b r c v r' c' = if r' = r ∧ c' = c then v else b r' c' := rfl

set_option maxHeartbeats 3200000 in
/-- C1: `makeMove` followed by `undoMove` restores the board grid, the side
to move, the castling rights, the en-passant target square and both king
locations exactly, for every legal move of every kind.  The hypotheses state
the invariants every legally constructed move and reachable state satisfy:
the move's stored pieces agree with the board (as `Move.__init__` computes
them), start and end differ, an en passant move is a diagonal pawn step onto
an empty square whose captured pawn stands beside the start square, a castle
move is a horizontal two-square king move over an empty square, the cached
king location matches a king move's start square, and the en-passant /
castling-rights logs end with the current values (as `__init__` establishes
and `makeMove` maintains). -/
theorem makeMove_undoMove_roundtrip (gs : GameState) (m : Move)
    (hpm : m.pieceMoved = gs.board m.startRow m.startCol)
    (hne : ¬(m.startRow = m.endRow ∧ m.startCol = m.endCol))
    (hpc : m.isEnPassantMove = false →
      m.pieceCaptured = gs.board m.endRow m.endCol)
    (hep : m.isEnPassantMove = true →
      m.startCol ≠ m.endCol ∧ gs.board m.endRow m.endCol = none ∧
      gs.board m.startRow m.endCol = m.pieceCaptured ∧
      m.isCastleMove = false ∧ m.isPawnPromotion = false ∧
      ((m.pieceMoved = wp ∧ m.startRow = m.endRow + 1) ∨
       (m.pieceMoved = bp ∧ m.startRow = m.endRow - 1)))
    (hcastle : m.isCastleMove = true →
      m.endRow = m.startRow ∧ m.isPawnPromotion = false ∧
      ((m.endCol = m.startCol + 2 ∧
          gs.board m.startRow (m.startCol + 1) = none) ∨
       (m.endCol = m.startCol - 2 ∧
          gs.board m.startRow (m.startCol - 1) = none)))
    (hwk : m.pieceMoved = wK →
      gs.whiteKingLocation = (m.startRow, m.startCol))
    (hbk : m.pieceMoved = bK →
      gs.blackKingLocation = (m.startRow, m.startCol))
    (heplog : gs.enPassantTargetSquare =
      (gs.enPassantTargetSquareLog.getLast?).getD none)
    (hcrlog : gs.castleRightsLog.getLast? = some gs.castleRights) :
    (undoMove (makeMove gs m)).board = gs.board ∧
    (undoMove (makeMove gs m)).whiteToMove = gs.whiteToMove ∧
    (undoMove (makeMove gs m)).castleRights = gs.castleRights ∧
    (undoMove (makeMove gs m)).enPassantTargetSquare =
      gs.enPassantTargetSquare ∧
    (undoMove (makeMove gs m)).whiteKingLocation = gs.whiteKingLocation ∧
    (undoMove (makeMove gs m)).blackKingLocation = gs.blackKingLocation := by
  have hlast : (makeMove gs m).moveLog.getLast? = some m := by
    show (gs.moveLog ++ [m]).getLast? = some m
    exact List.getLast?_concat _
  unfold undoMove
  rw [hlast]
  dsimp only
  refine ⟨?_, ?_, ?_, ?_, ?_, ?_⟩
  · -- the board grid
    cases hE : m.isEnPassantMove with
    | true =>
      obtain ⟨hsc, hend, hcap, hC, hP, hcol⟩ := hep hE
      rcases hcol with ⟨hw, hrow⟩ | ⟨hb, hrow⟩
      · have hcw : pieceColorIs m.pieceMoved Color.w = true := by
          rw [hw]; rfl
        have hr1 : m.endRow + (1 : Int) = m.startRow := by omega
        simp only [makeMove, hE, hC, hP, hcw, Bool.false_eq_true,
          eq_self_iff_true, if_true, if_false, hr1]
        funext r c
        simp only [setSq]
        split_ifs with h1 h2 h3
        · obtain ⟨rfl, rfl⟩ := h1
          exact hcap.symm
        · obtain ⟨rfl, rfl⟩ := h2
          exact hend.symm
        · obtain ⟨rfl, rfl⟩ := h3
          exact hpm
        · rfl
      · have hcb : pieceColorIs m.pieceMoved Color.w = false := by
          rw [hb]; rfl
        have hr1 : m.endRow + (-1 : Int) = m.startRow := by omega
        simp only [makeMove, hE, hC, hP, hcb, Bool.false_eq_true,
          eq_self_iff_true, if_true, if_false, hr1]
        funext r c
        simp only [setSq]
        split_ifs with h1 h2 h3
        · obtain ⟨rfl, rfl⟩ := h1
          exact hcap.symm
        · obtain ⟨rfl, rfl⟩ := h2
          exact hend.symm
        · obtain ⟨rfl, rfl⟩ := h3
          exact hpm
        · rfl
    | false =>
      cases hC : m.isCastleMove with
      | true =>
        obtain ⟨her, hP, hside⟩ := hcastle hC
        rw [her] at hpc
        rcases hside with ⟨hec, hmid⟩ | ⟨hec, hmid⟩
        · -- king side
          have hd : m.endCol - m.startCol = 2 := by omega
          simp only [makeMove, hE, hC, hP, her, hd, Bool.false_eq_true,
            eq_self_iff_true, if_true, if_false]
          funext r c
          simp only [setSq]
          split_ifs
          all_goals first
            | rfl
            | (exact absurd ⟨trivial, trivial⟩ ‹¬(True ∧ True)›)
            | (exfalso; omega)
            | (obtain ⟨rfl, rfl⟩ := ‹r = m.startRow ∧ c = m.endCol - 1›
               rw [show m.endCol - 1 = m.startCol + 1 from by omega]
               exact hmid.symm)
            | (obtain ⟨rfl, rfl⟩ := ‹r = m.startRow ∧ c = m.endCol + 1›; rfl)
            | (obtain ⟨rfl, rfl⟩ := ‹r = m.startRow ∧ c = m.endCol›
               exact hpc hE)
            | (obtain ⟨rfl, rfl⟩ := ‹r = m.startRow ∧ c = m.startCol›
               exact hpm)
        · -- queen side
          have hd : ¬(m.endCol - m.startCol = 2) := by omega
          simp only [makeMove, hE, hC, hP, her, hd, Bool.false_eq_true,
            eq_self_iff_true, if_true, if_false]
          funext r c
          simp only [setSq]
          split_ifs
          all_goals first
            | rfl
            | (exact absurd ⟨trivial, trivial⟩ ‹¬(True ∧ True)›)
            | (exfalso; omega)
            | (obtain ⟨rfl, rfl⟩ := ‹r = m.startRow ∧ c = m.endCol + 1›
               rw [show m.endCol + 1 = m.startCol - 1 from by omega]
               exact hmid.symm)
            | (obtain ⟨rfl, rfl⟩ := ‹r = m.startRow ∧ c = m.endCol - 2›; rfl)
            | (obtain ⟨rfl, rfl⟩ := ‹r = m.startRow ∧ c = m.endCol›
               exact hpc hE)
            | (obtain ⟨rfl, rfl⟩ := ‹r = m.startRow ∧ c = m.startCol›
               exact hpm)
      | false =>
        cases hP : m.isPawnPromotion with
        | true =>
          simp only [makeMove, hE, hC, hP, Bool.false_eq_true,
            eq_self_iff_true, if_true, if_false]
          funext r c
          simp only [setSq]
          split_ifs
          all_goals first
            | rfl
            | (exact absurd ⟨trivial, trivial⟩ ‹¬(True ∧ True)›)
            | (exfalso; omega)
            | (obtain ⟨rfl, rfl⟩ := ‹r = m.endRow ∧ c = m.endCol›
               exact hpc hE)
            | (obtain ⟨rfl, rfl⟩ := ‹r = m.startRow ∧ c = m.startCol›
               exact hpm)
        | false =>
          simp only [makeMove, hE, hC, hP, Bool.false_eq_true,
            eq_self_iff_true, if_true, if_false]
          funext r c
          simp only [setSq]
          split_ifs with h1 h2
          · obtain ⟨rfl, rfl⟩ := h1
            exact hpc hE
          · obtain ⟨rfl, rfl⟩ := h2
            exact hpm
          · rfl
  · -- whiteToMove: double negation
    show (!(!gs.whiteToMove)) = gs.whiteToMove
    exact Bool.not_not _
  · -- castling rights from the log
    show (updateCastleRightsUndo (makeMove gs m).castleRightsLog).1 =
      gs.castleRights
    show (updateCastleRightsUndo
      (gs.castleRightsLog ++ [updateCastleRights gs.castleRights m])).1 =
      gs.castleRights
    unfold updateCastleRightsUndo
    rw [if_neg (by simp), List.dropLast_concat]
    dsimp only
    rw [hcrlog]
    rfl
  · -- en-passant target from the log
    have hL : (makeMove gs m).enPassantTargetSquareLog =
        gs.enPassantTargetSquareLog ++
          [(makeMove gs m).enPassantTargetSquare] := rfl
    rw [hL, if_neg (by simp)]
    dsimp only
    rw [List.dropLast_concat]
    exact heplog.symm
  · -- white king location
    by_cases hk : m.pieceMoved = wK
    · rw [if_pos hk]
      exact (hwk hk).symm
    · rw [if_neg hk]
      show (if m.pieceMoved = wK then (m.endRow, m.endCol)
        else gs.whiteKingLocation) = gs.whiteKingLocation
      rw [if_neg hk]
  · -- black king location
    by_cases hk : m.pieceMoved = bK
    · rw [if_pos hk]
      exact (hbk hk).symm
    · rw [if_neg hk]
      show (if m.pieceMoved = bK then (m.endRow, m.endCol)
        else gs.blackKingLocation) = gs.blackKingLocation
      rw [if_neg hk]

/-- Witness for C1: the double pawn push e2-e4 from the initial position
satisfies every hypothesis, and the round trip restores the stated state
components. -/
theorem makeMove_undoMove_roundtrip_witness :
    (mkMove (6, 4) (4, 4) initialBoard false false).pieceMoved =
        initialGameState.board 6 4 ∧
    (undoMove (makeMove initialGameState
        (mkMove (6, 4) (4, 4) initialBoard false false))).board =
      initialGameState.board ∧
    (undoMove (makeMove initialGameState
        (mkMove (6, 4) (4, 4) initialBoard false false))).whiteToMove =
      initialGameState.whiteToMove := by
  have h := makeMove_undoMove_roundtrip initialGameState
    (mkMove (6, 4) (4, 4) initialBoard false false)
    (by decide) (by decide) (by decide) (by decide) (by decide) (by decide)
    (by decide) (by decide) (by decide)
  exact ⟨by decide, h.1, h.2.1⟩

/-! ## Claim C10 -/

/-- A single-character separator that fails `containsSub` occurs nowhere. -/
theorem not_mem_of_containsSub_single (a : Char) :
    ∀ s : List Char, containsSub [a] s = false → a ∉ s := by
  intro s
  induction s with
  | nil => intro _ h; simp at h
  | cons ch rest ih =>
    intro h
    rw [containsSub, Bool.or_eq_false_iff] at h
    have hac : ¬a = ch := by
      intro hh
      simp [List.isPrefixOf, hh] at h
    simp only [List.mem_cons]
    push_neg
    exact ⟨hac, ih h.2⟩

/-- Splitting on a single character that does not occur returns the whole
string. -/
theorem splitGo_no_occ_single (a : Char) :
    ∀ (s : List Char), a ∉ s → ∀ fuel, s.length ≤ fuel →
      splitGo [a] fuel s = [s] := by
  intro s
  induction s with
  | nil =>
    intro _ fuel _
    cases fuel <;> rfl
  | cons ch rest ih =>
    intro h fuel hf
    cases fuel with
    | zero => simp at hf
    | succ f =>
      rw [splitGo]
      rw [if_neg (fun hcond => by
        have hac : a ≠ ch := fun hh => h (by simp [hh])
        simp [List.isPrefixOf, hac] at hcond)]
      rw [ih (fun hm => h (List.mem_cons_of_mem _ hm)) f
        (by simp at hf ⊢; omega)]

/-- Splitting `p ++ [a] ++ rest` on the single character `a`, absent from both
parts, yields exactly `[p, rest]`. -/
theorem splitGo_mid_single (a : Char) :
    ∀ (p rest : List Char), a ∉ p → a ∉ rest → ∀ fuel,
      (p ++ a :: rest).length ≤ fuel →
      splitGo [a] fuel (p ++ a :: rest) = [p, rest] := by
  intro p
  induction p with
  | nil =>
    intro rest _hp hr fuel hf
    cases fuel with
    | zero => simp at hf
    | succ f =>
      rw [List.nil_append, splitGo]
      rw [if_pos ⟨by simp, by simp [List.isPrefixOf]⟩]
      show [] :: splitGo [a] f (List.drop 0 rest) = [[], rest]
      rw [List.drop_zero,
        splitGo_no_occ_single a rest hr f (by simp at hf ⊢; omega)]
  | cons b p' ih =>
    intro rest hp hr fuel hf
    cases fuel with
    | zero => simp at hf
    | succ f =>
      rw [List.cons_append, splitGo]
      rw [if_neg (fun hcond => by
        have hab : a ≠ b := fun hh => hp (by simp [hh])
        simp [List.isPrefixOf, hab] at hcond)]
      rw [ih rest (fun hm => hp (List.mem_cons_of_mem _ hm)) hr f
        (by simp at hf ⊢; omega)]

/-- Splitting on a two-character separator whose first character does not
occur returns the whole string. -/
theorem splitGo_no_occ_pair (a b : Char) :
    ∀ (s : List Char), a ∉ s → ∀ fuel, s.length ≤ fuel →
      splitGo [a, b] fuel s = [s] := by
  intro s
  induction s with
  | nil =>
    intro _ fuel _
    cases fuel <;> rfl
  | cons ch rest ih =>
    intro h fuel hf
    cases fuel with
    | zero => simp at hf
    | succ f =>
      rw [splitGo]
      rw [if_neg (fun hcond => by
        have hac : a ≠ ch := fun hh => h (by simp [hh])
        simp [List.isPrefixOf, hac] at hcond)]
      rw [ih (fun hm => h (List.mem_cons_of_mem _ hm)) f
        (by simp at hf ⊢; omega)]

/-- Splitting `p ++ [a, b] ++ rest` on the separator `[a, b]`, with `a`
absent from `p` and `rest`, yields exactly `[p, rest]`. -/
theorem splitGo_mid_pair (a b : Char) :
    ∀ (p rest : List Char), a ∉ p → a ∉ rest → ∀ fuel,
      (p ++ a :: b :: rest).length ≤ fuel →
      splitGo [a, b] fuel (p ++ a :: b :: rest) = [p, rest] := by
  intro p
  induction p with
  | nil =>
    intro rest _hp hr fuel hf
    cases fuel with
    | zero => simp at hf
    | succ f =>
      rw [List.nil_append, splitGo]
      rw [if_pos ⟨by simp, by simp [List.isPrefixOf]⟩]
      show [] :: splitGo [a, b] f (List.drop 1 (b :: rest)) = [[], rest]
      rw [show List.drop 1 (b :: rest) = rest from rfl,
        splitGo_no_occ_pair a b rest hr f (by simp at hf ⊢; omega)]
  | cons c p' ih =>
    intro rest hp hr fuel hf
    cases fuel with
    | zero => simp at hf
    | succ f =>
      rw [List.cons_append, splitGo]
      rw [if_neg (fun hcond => by
        have hac : a ≠ c := fun hh => hp (by simp [hh])
        simp [List.isPrefixOf, hac] at hcond)]
      rw [ih rest (fun hm => hp (List.mem_cons_of_mem _ hm)) hr f
        (by simp at hf ⊢; omega)]

/-- C10: the cached-move encoding round-trips.  For in-range squares and any
piece code containing neither ":" nor "->",
`custom_notation_to_fen_move ( fen_to_custom_notation startSq endSq piece)`
returns exactly the encoded squares and piece. -/
theorem custom_notation_roundtrip (sr sc er ec : Nat)
    (h1 : sr ≤ 7) (h2 : sc ≤ 7) (h3 : er ≤ 7) (h4 : ec ≤ 7)
    (piece : List Char)
    (hc : containsSub [':'] piece = false)
    (_ha : containsSub ['-', '>'] piece = false) :
    custom_notation_to_fen_move
        ( fen_to_custom_notation (sr, sc) (er, ec) piece) =
      some ((sr, sc), (er, ec), piece) := by
  have hfileN : ∀ n : Nat, n ≤ 7 → (Char.ofNat (n + 97)).toNat = n + 97 := by
    intro n hn; interval_cases n <;> rfl
  have hfileC : ∀ n : Nat, n ≤ 7 →
      Char.ofNat (n + 97) ≠ ':' ∧ Char.ofNat (n + 97) ≠ '-' := by
    intro n hn; interval_cases n <;> exact ⟨by decide, by decide⟩
  have hrankN : ∀ n : Nat, n ≤ 7 →
      (Char.ofNat (48 + (8 - n))).toNat = 48 + (8 - n) := by
    intro n hn; interval_cases n <;> rfl
  have hrankC : ∀ n : Nat, n ≤ 7 →
      Char.ofNat (48 + (8 - n)) ≠ ':' ∧ Char.ofNat (48 + (8 - n)) ≠ '-' := by
    intro n hn; interval_cases n <;> exact ⟨by decide, by decide⟩
  have hcolon : (':' : Char) ∉ piece := not_mem_of_containsSub_single ':' piece hc
  have henc : fen_to_custom_notation (sr, sc) (er, ec) piece =
      piece ++ ':' ::
        [Char.ofNat (sc + 97), Char.ofNat (48 + (8 - sr)), '-', '>',
         Char.ofNat (ec + 97), Char.ofNat (48 + (8 - er))] := by
    simp [ fen_to_custom_notation]
  have hnc2 : (':' : Char) ∉
      [Char.ofNat (sc + 97), Char.ofNat (48 + (8 - sr)), '-', '>',
       Char.ofNat (ec + 97), Char.ofNat (48 + (8 - er))] := by
    simp only [List.mem_cons, List.not_mem_nil, or_false]
    push_neg
    exact ⟨fun h => (hfileC sc h2).1 h.symm, fun h => (hrankC sr h1).1 h.symm,
      by decide, by decide, fun h => (hfileC ec h4).1 h.symm,
      fun h => (hrankC er h3).1 h.symm⟩
  have hsplit1 : splitOnSub [':']
      ( fen_to_custom_notation (sr, sc) (er, ec) piece) =
      [piece,
       [Char.ofNat (sc + 97), Char.ofNat (48 + (8 - sr)), '-', '>',
        Char.ofNat (ec + 97), Char.ofNat (48 + (8 - er))]] := by
    rw [henc]
    exact splitGo_mid_single ':' piece _ hcolon hnc2 _ le_rfl
  have hdash1 : ('-' : Char) ∉
      [Char.ofNat (sc + 97), Char.ofNat (48 + (8 - sr))] := by
    simp only [List.mem_cons, List.not_mem_nil, or_false]
    push_neg
    exact ⟨fun h => (hfileC sc h2).2 h.symm, fun h => (hrankC sr h1).2 h.symm⟩
  have hdash2 : ('-' : Char) ∉
      [Char.ofNat (ec + 97), Char.ofNat (48 + (8 - er))] := by
    simp only [List.mem_cons, List.not_mem_nil, or_false]
    push_neg
    exact ⟨fun h => (hfileC ec h4).2 h.symm, fun h => (hrankC er h3).2 h.symm⟩
  have hsplit2 : splitOnSub ['-', '>']
      [Char.ofNat (sc + 97), Char.ofNat (48 + (8 - sr)), '-', '>',
       Char.ofNat (ec + 97), Char.ofNat (48 + (8 - er))] =
      [[Char.ofNat (sc + 97), Char.ofNat (48 + (8 - sr))],
       [Char.ofNat (ec + 97), Char.ofNat (48 + (8 - er))]] := by
    exact splitGo_mid_pair '-' '>'
      [Char.ofNat (sc + 97), Char.ofNat (48 + (8 - sr))]
      [Char.ofNat (ec + 97), Char.ofNat (48 + (8 - er))]
      hdash1 hdash2 _ le_rfl
  rw [custom_notation_to_fen_move, hsplit1]
  show (match splitOnSub ['-', '>']
      [Char.ofNat (sc + 97), Char.ofNat (48 + (8 - sr)), '-', '>',
       Char.ofNat (ec + 97), Char.ofNat (48 + (8 - er))] with
    | [start, endS] =>
      some ((8 - ((start.getD 1 ' ').toNat - 48),
             (start.getD 0 ' ').toNat - 97),
            (8 - ((endS.getD 1 ' ').toNat - 48),
             (endS.getD 0 ' ').toNat - 97),
            piece)
    | _ => none) = some ((sr, sc), (er, ec), piece)
  rw [hsplit2]
  show some ((8 - ((Char.ofNat (48 + (8 - sr))).toNat - 48),
              (Char.ofNat (sc + 97)).toNat - 97),
             (8 - ((Char.ofNat (48 + (8 - er))).toNat - 48),
              (Char.ofNat (ec + 97)).toNat - 97),
             piece) = some ((sr, sc), (er, ec), piece)
  rw [hrankN sr h1, hrankN er h3, hfileN sc h2, hfileN ec h4]
  have e1 : 8 - (48 + (8 - sr) - 48) = sr := by omega
  have e2 : sc + 97 - 97 = sc := by omega
  have e3 : 8 - (48 + (8 - er) - 48) = er := by omega
  have e4 : ec + 97 - 97 = ec := by omega
  rw [e1, e2, e3, e4]

/-- Witness for C10: the round trip at e2-e4 with piece code "wp". -/
theorem custom_notation_roundtrip_witness :
    containsSub [':'] ['w', 'p'] = false ∧
    containsSub ['-', '>'] ['w', 'p'] = false ∧
    custom_notation_to_fen_move
        ( fen_to_custom_notation (6, 4) (4, 4) ['w', 'p']) =
      some ((6, 4), (4, 4), ['w', 'p']) :=
  ⟨by decide, by decide,
    custom_notation_roundtrip 6 4 4 4 (by decide) (by decide) (by decide)
      (by decide) ['w', 'p'] (by decide) (by decide)⟩


